import Mathlib

/-!
# Verification of the StarHub case-study ETL pipeline (`scripts.py`)

Shallow embedding of the pandas-based reconciliation pipeline:
the two transforms `clean_active` and `clean_order` and the sink routine
`write_to_netezza`.

A pandas `DataFrame` is modelled as a list of column names together with a
list of rows; each row is an association list from column name to cell
value.  Cell values are strings, integers, nulls (`NaN`), or timestamps
(the intermediate result of `pd.to_datetime`).  Python rebinding versus
in-place mutation is modelled explicitly: each transform returns, besides
its result, the caller-visible final state of its two input frames.

Dates are triples of numerals at day granularity (`pd.to_datetime('today')`
is truncated to a day by the `strftime('%Y-%m-%d')` calls that follow it in
the source).  `pd.to_datetime(col, format='%d/%m/%Y')` is modelled by a
day/month/year parser that validates calendar ranges and raises (returns an
error) on any non-matching cell, exactly as pandas does.  The format-free
`pd.to_datetime(col)` used by `clean_order` is modelled by a flexible parser
accepting canonical `YYYY-MM-DD` strings and month/day/year slash dates
(pandas accepts more layouts; the claims below only exercise these).
-/

namespace ETL

/-- A calendar date at day granularity. -/
structure Date where
  y : Nat
  m : Nat
  d : Nat
deriving DecidableEq, Repr

/-- A cell of a DataFrame: string, integer, null (`NaN`), or an
intermediate `pd.Timestamp` produced by `pd.to_datetime`. -/
inductive Value where
  | str (s : String)
  | int (n : Int)
  | null
  | date (d : Date)
deriving DecidableEq, Repr

/-- Errors raised by the transforms: a date column failing to parse
(`ValueError` from `pd.to_datetime` on a column, the spec's `FormatError`),
or the optional `date` argument of `clean_active` failing to parse. -/
inductive Err where
  | formatError (col : String)
  | argError
deriving DecidableEq, Repr

/-- A row: association list from column name to cell value, in column
order. -/
abbrev Row := List (String × Value)

/-- A DataFrame: column names plus rows. -/
structure DF where
  cols : List String
  rows : List Row
deriving DecidableEq, Repr

/-- Column access on a row (first binding wins, like a well-formed frame). -/
def Row.get (r : Row) (c : String) : Value :=
  match r.find? (fun kv => kv.1 == c) with
  | some kv => kv.2
  | none => Value.null

/-- Gregorian leap year. -/
def isLeap (y : Nat) : Bool :=
  y % 4 == 0 && (y % 100 != 0 || y % 400 == 0)

/-- Days in a month of a given year. -/
def daysInMonth (y m : Nat) : Nat :=
  if m == 2 then (if isLeap y then 29 else 28)
  else if m == 4 || m == 6 || m == 9 || m == 11 then 30
  else 31

/-- A date lies in the range representable by the pipeline's textual
calendar handling: four-digit year, real month and day. -/
def dateValid (dt : Date) : Bool :=
  1 ≤ dt.y && dt.y ≤ 9999 && 1 ≤ dt.m && dt.m ≤ 12 && 1 ≤ dt.d && dt.d ≤ daysInMonth dt.y dt.m

/-- `pd.DateOffset(days=1)` subtracted from a timestamp, at day
granularity. -/
def prevDay (dt : Date) : Date :=
  if 2 ≤ dt.d then ⟨dt.y, dt.m, dt.d - 1⟩
  else if 2 ≤ dt.m then ⟨dt.y, dt.m - 1, daysInMonth dt.y (dt.m - 1)⟩
  else ⟨dt.y - 1, 12, 31⟩

/-- Decimal digit to character. -/
def digitChar (n : Nat) : Char :=
  match n with
  | 0 => '0' | 1 => '1' | 2 => '2' | 3 => '3' | 4 => '4'
  | 5 => '5' | 6 => '6' | 7 => '7' | 8 => '8' | 9 => '9'
  | _ => '*'

/-- Character to decimal digit value (10 on non-digits). -/
def digitVal (c : Char) : Nat :=
  match c with
  | '0' => 0 | '1' => 1 | '2' => 2 | '3' => 3 | '4' => 4
  | '5' => 5 | '6' => 6 | '7' => 7 | '8' => 8 | '9' => 9
  | _ => 10

/-- Decimal digit test. -/
def isDigitCh (c : Char) : Bool :=
  match c with
  | '0' | '1' | '2' | '3' | '4' | '5' | '6' | '7' | '8' | '9' => true
  | _ => false

/-- Two-digit zero-padded print (`%m`, `%d` of `strftime`). -/
def pad2 (n : Nat) : List Char :=
  [digitChar (n / 10 % 10), digitChar (n % 10)]

/-- Four-digit zero-padded print (`%Y` of `strftime`). -/
def pad4 (n : Nat) : List Char :=
  [digitChar (n / 1000 % 10), digitChar (n / 100 % 10), digitChar (n / 10 % 10), digitChar (n % 10)]

/-- `strftime('%Y-%m-%d')` as a character list. -/
def isoChars (dt : Date) : List Char :=
  pad4 dt.y ++ '-' :: (pad2 dt.m ++ '-' :: pad2 dt.d)

/-- `strftime('%Y-%m-%d')`. -/
def isoFmt (dt : Date) : String :=
  String.mk (isoChars dt)

/-- Read a nonempty all-digit character list as a numeral. -/
def parseNatDigits (l : List Char) : Nat :=
  l.foldl (fun acc c => acc * 10 + digitVal c) 0

/-- Build a date only when it is calendar-valid (pandas raises on
out-of-range components such as `31/02/2024`). -/
def mkValidDate (y m d : Nat) : Option Date :=
  if dateValid ⟨y, m, d⟩ then some ⟨y, m, d⟩ else none

/-- Parse a canonical fixed-width `YYYY-MM-DD` string. -/
def parseIsoChars (l : List Char) : Option Date :=
  match l with
  | [a, b, c, d, e, f, g, h, i, j] =>
    if e == '-' && h == '-' && isDigitCh a && isDigitCh b && isDigitCh c && isDigitCh d &&
        isDigitCh f && isDigitCh g && isDigitCh i && isDigitCh j then
      mkValidDate (((digitVal a * 10 + digitVal b) * 10 + digitVal c) * 10 + digitVal d)
        (digitVal f * 10 + digitVal g) (digitVal i * 10 + digitVal j)
    else none
  | _ => none

/-- Split a character list on a separator character. -/
def splitOnChar (sep : Char) : List Char → List (List Char)
  | [] => [[]]
  | c :: cs =>
    let r := splitOnChar sep cs
    if c == sep then [] :: r
    else
      match r with
      | [] => [[c]]
      | g :: gs => (c :: g) :: gs

/-- One- or two-digit field. -/
def shortDigits (l : List Char) : Bool :=
  (l.length == 1 || l.length == 2) && l.all isDigitCh

/-- Four-digit field. -/
def fourDigits (l : List Char) : Bool :=
  l.length == 4 && l.all isDigitCh

/-- Parse a month/day/year slash date (the convention `pd.to_datetime`
applies to slash dates when no format is supplied). -/
def parseSlashMDY (l : List Char) : Option Date :=
  match splitOnChar '/' l with
  | [ms, ds, ys] =>
    if shortDigits ms && shortDigits ds && fourDigits ys then
      mkValidDate (parseNatDigits ys) (parseNatDigits ms) (parseNatDigits ds)
    else none
  | _ => none

/-- Parse a day/month/year slash date: `pd.to_datetime(col, format='%d/%m/%Y')`. -/
def parseDMYChars (l : List Char) : Option Date :=
  match splitOnChar '/' l with
  | [ds, ms, ys] =>
    if shortDigits ds && shortDigits ms && fourDigits ys then
      mkValidDate (parseNatDigits ys) (parseNatDigits ms) (parseNatDigits ds)
    else none
  | _ => none

/-- Format-free `pd.to_datetime` on a string cell. -/
def parseFlexChars (l : List Char) : Option Date :=
  match parseIsoChars l with
  | some dt => some dt
  | none => parseSlashMDY l

/-- Format-free `pd.to_datetime` on a cell: only string cells parse. -/
def parseFlexV (v : Value) : Option Date :=
  match v with
  | Value.str s => parseFlexChars s.data
  | _ => none

/-- `pd.to_datetime(·, format='%d/%m/%Y')` on a cell. -/
def parseDMYV (v : Value) : Option Date :=
  match v with
  | Value.str s => parseDMYChars s.data
  | _ => none

/-- Python `str()` of a cell, as applied by `astype(str)` (`NaN` prints as
`"nan"`). -/
def valueToStr (v : Value) : String :=
  match v with
  | Value.str s => s
  | Value.int n => toString n
  | Value.null => "nan"
  | Value.date dt => isoFmt dt

/-! ## DataFrame operations -/

/-- Rename a column in one row. -/
def renameKey (old new : String) (r : Row) : Row :=
  r.map (fun kv => (if kv.1 == old then new else kv.1, kv.2))

/-- `df.rename(columns={old: new})`.  Returns a fresh frame. -/
def renameCol (old new : String) (df : DF) : DF :=
  ⟨df.cols.map (fun c => if c == old then new else c), df.rows.map (renameKey old new)⟩

/-- `astype(str)` on the listed columns, at row level. -/
def astypeRow (cs : List String) (r : Row) : Row :=
  r.map (fun kv => if cs.contains kv.1 then (kv.1, Value.str (valueToStr kv.2)) else kv)

/-- `df[cs] = df[cs].astype(str)`. -/
def astypeStr (cs : List String) (df : DF) : DF :=
  ⟨df.cols, df.rows.map (astypeRow cs)⟩

/-- Map a fallible function over the cells of a row, stopping at the first
error. -/
def mapCellsExcept (f : String × Value → Except Err (String × Value)) :
    Row → Except Err Row
  | [] => Except.ok []
  | kv :: r =>
    match f kv with
    | Except.error e => Except.error e
    | Except.ok kv2 =>
      match mapCellsExcept f r with
      | Except.error e => Except.error e
      | Except.ok r2 => Except.ok (kv2 :: r2)

/-- Map a fallible function over the rows of a frame, stopping at the first
error. -/
def mapRowsExcept (f : Row → Except Err Row) : List Row → Except Err (List Row)
  | [] => Except.ok []
  | r :: rs =>
    match f r with
    | Except.error e => Except.error e
    | Except.ok r2 =>
      match mapRowsExcept f rs with
      | Except.error e => Except.error e
      | Except.ok rs2 => Except.ok (r2 :: rs2)

/-- Parse one cell of the named column into a timestamp. -/
def parseCell (p : Value → Option Date) (col : String) (kv : String × Value) :
    Except Err (String × Value) :=
  if kv.1 == col then
    match p kv.2 with
    | some dt => Except.ok (kv.1, Value.date dt)
    | none => Except.error (Err.formatError col)
  else Except.ok kv

/-- `df[col] = pd.to_datetime(df[col], ...)`: every cell of the column is
parsed into a timestamp; any failure raises and aborts the whole
operation, producing no partial frame. -/
def toDatetimeCol (p : Value → Option Date) (col : String) (df : DF) : Except Err DF :=
  match mapRowsExcept (mapCellsExcept (parseCell p col)) df.rows with
  | Except.error e => Except.error e
  | Except.ok rows2 => Except.ok ⟨df.cols, rows2⟩

/-- One cell of `dt.strftime('%Y-%m-%d')`. -/
def strftimeCell (kv : String × Value) (col : String) : String × Value :=
  if kv.1 == col then
    match kv.2 with
    | Value.date dt => (kv.1, Value.str (isoFmt dt))
    | v => (kv.1, v)
  else kv

/-- `df[col] = df[col].dt.strftime('%Y-%m-%d')`. -/
def strftimeCol (col : String) (df : DF) : DF :=
  ⟨df.cols, df.rows.map (fun r => r.map (fun kv => strftimeCell kv col))⟩

/-- Boolean-mask row selection `df[df[...] ...]`. -/
def filterRows (p : Row → Bool) (df : DF) : DF :=
  ⟨df.cols, df.rows.filter p⟩

/-- `df.drop(col, axis=1)`. -/
def dropCol (col : String) (df : DF) : DF :=
  ⟨df.cols.filter (fun c => c != col), df.rows.map (fun r => r.filter (fun kv => kv.1 != col))⟩

/-- Keep-first deduplication scan: a row is kept when its key value has
not been seen earlier in the input. -/
def dropDupAux (col : String) (seen : List Value) : List Row → List Row
  | [] => []
  | r :: rs =>
    if seen.contains (Row.get r col) then dropDupAux col seen rs
    else r :: dropDupAux col (Row.get r col :: seen) rs

/-- Keep-first deduplication of rows by the value of one column
(`drop_duplicates(subset=[col])`, default `keep='first'`). -/
def dropDupRows (col : String) (l : List Row) : List Row :=
  dropDupAux col [] l

/-- `df.drop_duplicates(subset=[col])`. -/
def dropDuplicatesBy (col : String) (df : DF) : DF :=
  ⟨df.cols, dropDupRows col df.rows⟩

/-! ## Left merge (`pd.merge(..., how='left')`) -/

/-- Right-side columns that are not join keys; these are appended to each
output row. -/
def rightNonKey (r : DF) (keys : List String) : List String :=
  r.cols.filter (fun c => !(keys.contains c))

/-- Suffix `_x` applied to a left column that collides with a non-key
right column. -/
def sufL (r : DF) (keys : List String) (c : String) : String :=
  if !(keys.contains c) && r.cols.contains c then c ++ "_x" else c

/-- Suffix `_y` applied to a right non-key column that collides with a
left column. -/
def sufR (l : DF) (c : String) : String :=
  if l.cols.contains c then c ++ "_y" else c

/-- The left half of an output row of the merge. -/
def leftRowOut (r : DF) (keys : List String) (lr : Row) : Row :=
  lr.map (fun kv => (sufL r keys kv.1, kv.2))

/-- The right rows matching a left row on all join keys. -/
def matchRows (r : DF) (keys : List String) (lr : Row) : List Row :=
  r.rows.filter (fun rr => keys.all (fun k => Row.get lr k == Row.get rr k))

/-- The output rows produced by one left row: one null-padded row when
nothing matches, otherwise one row per match (fan-out). -/
def mergeRowsFor (l r : DF) (keys : List String) (lr : Row) : List Row :=
  match matchRows r keys lr with
  | [] => [leftRowOut r keys lr ++ (rightNonKey r keys).map (fun c => (sufR l c, Value.null))]
  | ms => ms.map (fun rr => leftRowOut r keys lr ++ (rightNonKey r keys).map (fun c => (sufR l c, Row.get rr c)))

/-- `l.merge(r, on=keys, how='left')`. -/
def mergeLeft (l r : DF) (keys : List String) : DF :=
  ⟨l.cols.map (sufL r keys) ++ (rightNonKey r keys).map (sufR l),
   l.rows.flatMap (mergeRowsFor l r keys)⟩

/-! ## The transforms of `scripts.py` -/

/-- `pd.to_datetime(date)` applied to the optional `date` argument of
`clean_active`; `None` defaults to `pd.to_datetime('today')`. -/
def parseArg (date : Option Value) (today : Date) : Except Err Date :=
  match date with
  | none => Except.ok today
  | some v =>
    match parseFlexV v with
    | some dt => Except.ok dt
    | none => Except.error Err.argError

/-- Lines 113–115 of `scripts.py`: parse `SNAPSHOT_DATE` with format
`%d/%m/%Y` and re-emit it as a `YYYY-MM-DD` string. -/
def normalizeActiveDates (df : DF) : Except Err DF :=
  match toDatetimeCol parseDMYV "SNAPSHOT_DATE" df with
  | Except.error e => Except.error e
  | Except.ok x => Except.ok (strftimeCol "SNAPSHOT_DATE" x)

/-- Lines 126–129 of `scripts.py`: coerce `CUSTOMER_ID` to string and
deduplicate the customer table by it. -/
def dedupCustomer (customer : DF) : DF :=
  dropDuplicatesBy "CUSTOMER_ID" (astypeStr ["CUSTOMER_ID"] customer)

/-- Lexicographic (code-point) comparison of character lists: Python's
`<=` on strings. -/
def charListLe : List Char → List Char → Bool
  | [], _ => true
  | _ :: _, [] => false
  | a :: as, b :: bs => if a == b then charListLe as bs else decide (a.toNat < b.toNat)

/-- Python string `<=`. -/
def strLe (a b : String) : Bool :=
  charListLe a.data b.data

/-- String comparison of a cell against the watermark string
(`active['SNAPSHOT_DATE'] <= date_gap.strftime('%Y-%m-%d')`); at this
point in the pipeline every cell of the column is a string. -/
def cellLeStr (v : Value) (bound : String) : Bool :=
  match v with
  | Value.str s => strLe s bound
  | _ => false

/-- `clean_active` (lines 82–137 of `scripts.py`).

Returns, besides the merged result, the caller-visible final states of the
two input frames: `active` is only ever rebound (`rename` returns a fresh
frame), so the caller's `active` is unchanged; `customer` is mutated in
place by `customer[['CUSTOMER_ID']] = customer[['CUSTOMER_ID']].astype(str)`
before the subsequent rebinding calls, so the caller's `customer` ends as
the string-coerced frame.  `today` models the wall clock sampled by
`pd.to_datetime('today')`. -/
def clean_active (active customer : DF) (date : Option Value) (today : Date) :
    Except Err (DF × DF × DF) :=
  match parseArg date today with
  | Except.error e => Except.error e
  | Except.ok _refDate =>
    let a1 := renameCol "REPORT_DATE" "SNAPSHOT_DATE" active
    let a2 := astypeStr ["CUSTOMER_ID", "SERVICE_ID", "SERVICE_NAME"] a1
    match normalizeActiveDates a2 with
    | Except.error e => Except.error e
    | Except.ok a4 =>
      let cutoff := isoFmt (prevDay today)
      let a5 := filterRows (fun r => cellLeStr (Row.get r "SNAPSHOT_DATE") cutoff) a4
      let a6 := filterRows (fun r => Row.get r "SUBSCRIPTION_STATUS" == Value.str "active") a5
      let a7 := dropCol "SUBSCRIPTION_STATUS" a6
      let c1 := astypeStr ["CUSTOMER_ID"] customer
      let c2 := dedupCustomer customer
      let c3 := dropCol "REPORT_DATE" c2
      Except.ok (mergeLeft a7 c3 ["CUSTOMER_ID"], active, c1)

/-- Lines 157–162 of `scripts.py` (per frame): format-free
`pd.to_datetime` on `REPORT_DATE` followed by `strftime('%Y-%m-%d')`. -/
def normalizeOrderDates (df : DF) : Except Err DF :=
  match toDatetimeCol parseFlexV "REPORT_DATE" df with
  | Except.error e => Except.error e
  | Except.ok x => Except.ok (strftimeCol "REPORT_DATE" x)

/-- `clean_order` (lines 140–171 of `scripts.py`).

Both inputs are mutated in place (date normalization, then `SERVICE_ID`
string coercion), so the caller-visible final states returned alongside
the result are the fully normalized frames, and the merge joins exactly
those frames. -/
def clean_order (order service : DF) : Except Err (DF × DF × DF) :=
  match normalizeOrderDates order with
  | Except.error e => Except.error e
  | Except.ok o1 =>
    match normalizeOrderDates service with
    | Except.error e => Except.error e
    | Except.ok s1 =>
      let s2 := astypeStr ["SERVICE_ID"] s1
      let o2 := astypeStr ["SERVICE_ID"] o1
      Except.ok (mergeLeft o2 s2 ["SERVICE_ID", "REPORT_DATE"], o2, s2)

/-! ## The bulk sink (`write_to_netezza`) -/

/-- The observable state of the warehouse connection: inserts committed
durably, inserts executed but not yet committed, and the number of
`conn.commit()` calls issued. -/
structure SinkState where
  committed : List (String × List Value)
  pending : List (String × List Value)
  commits : Nat
deriving DecidableEq, Repr

/-- `cursor.execute(insert_query, row)`: parametrized by an oracle `ok`
saying which row tuples the sink accepts (constraint violations etc.). -/
def insertRow (ok : List Value → Bool) (table : String) (st : SinkState)
    (vals : List Value) : Option SinkState :=
  if ok vals then some { st with pending := st.pending ++ [(table, vals)] } else none

/-- `conn.commit()`. -/
def commitConn (st : SinkState) : SinkState :=
  { committed := st.committed ++ st.pending, pending := [], commits := st.commits + 1 }

/-- The insert loop of `write_to_netezza`; a failing insert raises,
leaving the connection state as it was at that point (error case). -/
def writeRows (ok : List Value → Bool) (table : String) :
    List Row → SinkState → Except SinkState SinkState
  | [], st => Except.ok (commitConn st)
  | r :: rs, st =>
    match insertRow ok table st (r.map (fun kv => kv.2)) with
    | some st2 => writeRows ok table rs st2
    | none => Except.error st

/-- `write_to_netezza` (lines 44–78 of `scripts.py`): row-by-row insert of
the frame's tuples, one `conn.commit()` after the last row. -/
def write_to_netezza (ok : List Value → Bool) (df : DF) (table : String)
    (conn : SinkState) : Except SinkState SinkState :=
  writeRows ok table df.rows conn

/-! ## Example frames (the spec's end-to-end example, section 8) -/

/-- The raw active extract of the spec's end-to-end example. -/
def activeEx : DF :=
  ⟨["REPORT_DATE", "CUSTOMER_ID", "SERVICE_ID", "SERVICE_NAME", "SUBSCRIPTION_STATUS"],
   [[("REPORT_DATE", Value.str "01/01/2024"), ("CUSTOMER_ID", Value.int 1),
     ("SERVICE_ID", Value.int 10), ("SERVICE_NAME", Value.str "X"),
     ("SUBSCRIPTION_STATUS", Value.str "active")]]⟩

/-- The raw customer extract of the spec's end-to-end example. -/
def customerEx : DF :=
  ⟨["CUSTOMER_ID", "REPORT_DATE", "NAME"],
   [[("CUSTOMER_ID", Value.int 1), ("REPORT_DATE", Value.str "2024-01-01"),
     ("NAME", Value.str "Alice")]]⟩

/-- The customer frame after the in-place `astype(str)` coercion of
`CUSTOMER_ID`. -/
def customerExStr : DF :=
  ⟨["CUSTOMER_ID", "REPORT_DATE", "NAME"],
   [[("CUSTOMER_ID", Value.str "1"), ("REPORT_DATE", Value.str "2024-01-01"),
     ("NAME", Value.str "Alice")]]⟩

/-- The optional `date` argument is acceptable to `pd.to_datetime`:
absent, or a cell the flexible parser accepts. -/
def argOk : Option Value → Prop
  | none => True
  | some v => (parseFlexV v).isSome = true

deriving instance DecidableEq for Except

/-! ## Basic lemmas -/

/-- An acceptable `date` argument parses successfully. -/
theorem parseArg_ok_of_argOk (d : Option Value) (t : Date) (h : argOk d) :
    ∃ dt, parseArg d t = Except.ok dt := by
  cases d with
  | none => exact ⟨t, rfl⟩
  | some v =>
    cases hv : parseFlexV v with
    | none => rw [argOk, hv] at h; cases h
    | some dt => exact ⟨dt, by simp [parseArg, hv]⟩

/-! ## C10 -/

/-- C10: for any two acceptable values of the optional `date` argument,
`clean_active` returns the same output when run at the same wall-clock
instant — the argument is parsed but never used, the watermark always
comes from `pd.to_datetime('today')`. -/
theorem c10_date_arg_no_effect (a c : DF) (t : Date) (d1 d2 : Option Value)
    (h1 : argOk d1) (h2 : argOk d2) :
    clean_active a c d1 t = clean_active a c d2 t := by
  obtain ⟨x1, e1⟩ := parseArg_ok_of_argOk d1 t h1
  obtain ⟨x2, e2⟩ := parseArg_ok_of_argOk d2 t h2
  simp only [clean_active, e1, e2]

/-- Witness for C10: an explicit reference date of `2024-01-05` and an
absent date argument give the same result. -/
theorem c10_date_arg_no_effect_witness :
    clean_active activeEx customerEx (some (Value.str "2024-01-05")) ⟨2024, 1, 5⟩ =
      clean_active activeEx customerEx none ⟨2024, 1, 5⟩ :=
  c10_date_arg_no_effect activeEx customerEx ⟨2024, 1, 5⟩
    (some (Value.str "2024-01-05")) none rfl trivial

/-! ## C1 -/

/-- C1 (code bug): called with the explicit reference date `2024-01-05`
while the wall clock reads `2024-01-01`, `clean_active` drops the
qualifying row whose normalized `SNAPSHOT_DATE` is `2024-01-01`, even
though that date is within the claimed watermark
`reference_date − 1 day = 2024-01-04`: the filter on line 119 of
`scripts.py` uses `pd.to_datetime('today')`, not the `date` parameter its
docstring designates as "the reference date for filtering". -/
theorem c1_reference_date_ignored :
    strLe "2024-01-01" (isoFmt (prevDay ⟨2024, 1, 5⟩)) = true ∧
    clean_active activeEx customerEx (some (Value.str "2024-01-05")) ⟨2024, 1, 1⟩ =
      Except.ok (⟨["SNAPSHOT_DATE", "CUSTOMER_ID", "SERVICE_ID", "SERVICE_NAME", "NAME"], []⟩,
        activeEx, customerExStr) :=
  ⟨by decide, by decide⟩

/-! ## C2 -/

/-- Success inversion for `clean_active`: the call succeeds exactly when
the argument parse and the `SNAPSHOT_DATE` column parse succeed, and the
output is the merge of the filtered active frame with the deduplicated
customer frame, together with the caller-visible input states. -/
theorem clean_active_ok_iff (a c : DF) (d : Option Value) (t : Date) (x : DF × DF × DF) :
    clean_active a c d t = Except.ok x ↔
      (∃ rd, parseArg d t = Except.ok rd) ∧
      ∃ a4, normalizeActiveDates (astypeStr ["CUSTOMER_ID", "SERVICE_ID", "SERVICE_NAME"]
          (renameCol "REPORT_DATE" "SNAPSHOT_DATE" a)) = Except.ok a4 ∧
        x = (mergeLeft
              (dropCol "SUBSCRIPTION_STATUS"
                (filterRows (fun r => Row.get r "SUBSCRIPTION_STATUS" == Value.str "active")
                  (filterRows (fun r => cellLeStr (Row.get r "SNAPSHOT_DATE") (isoFmt (prevDay t))) a4)))
              (dropCol "REPORT_DATE" (dedupCustomer c)) ["CUSTOMER_ID"],
            a, astypeStr ["CUSTOMER_ID"] c) := by
  cases hp : parseArg d t with
  | error e => simp [clean_active, hp]
  | ok rd =>
    cases hn : normalizeActiveDates (astypeStr ["CUSTOMER_ID", "SERVICE_ID", "SERVICE_NAME"]
        (renameCol "REPORT_DATE" "SNAPSHOT_DATE" a)) with
    | error e => simp [clean_active, hp, hn]
    | ok a4 => simp [clean_active, hp, hn, eq_comm]

/-- `astype(str)` leaves a row unchanged when the targeted cells already
hold strings. -/
theorem astypeRow_id (cs : List String) (r : Row)
    (h : ∀ kv ∈ r, cs.contains kv.1 = true → ∃ s, kv.2 = Value.str s) :
    astypeRow cs r = r := by
  induction r with
  | nil => rfl
  | cons kv r ih =>
    have hr : astypeRow cs r = r := ih (fun kv2 h2 => h kv2 (List.mem_cons_of_mem kv h2))
    have hhead : (if cs.contains kv.1 then (kv.1, Value.str (valueToStr kv.2)) else kv) = kv := by
      cases hc : cs.contains kv.1 with
      | false => simp
      | true =>
        obtain ⟨s, hs⟩ := h kv (List.mem_cons_self kv r) hc
        obtain ⟨k1, v1⟩ := kv
        simp only at hs
        subst hs
        simp [valueToStr]
    show (if cs.contains kv.1 then (kv.1, Value.str (valueToStr kv.2)) else kv) :: astypeRow cs r
      = kv :: r
    rw [hhead, hr]

/-- `astype(str)` leaves a frame unchanged when the targeted cells already
hold strings. -/
theorem astypeStr_id (cs : List String) (df : DF)
    (h : ∀ r ∈ df.rows, ∀ kv ∈ r, cs.contains kv.1 = true → ∃ s, kv.2 = Value.str s) :
    astypeStr cs df = df := by
  cases df with
  | mk cols rows =>
    simp only [astypeStr, DF.mk.injEq, true_and]
    calc rows.map (astypeRow cs) = rows.map id := by
          exact List.map_congr_left (fun r hr => astypeRow_id cs r (h r hr))
      _ = rows := List.map_id rows

/-- C2 counterexample: on the spec's own end-to-end example, whose
`CUSTOMER_ID` cells are integers, `clean_active` returns with the caller's
customer frame coerced to strings in place — the input table is changed. -/
theorem c2_customer_mutated :
    clean_active activeEx customerEx none ⟨2024, 1, 5⟩ =
      Except.ok (⟨["SNAPSHOT_DATE", "CUSTOMER_ID", "SERVICE_ID", "SERVICE_NAME", "NAME"],
          [[("SNAPSHOT_DATE", Value.str "2024-01-01"), ("CUSTOMER_ID", Value.str "1"),
            ("SERVICE_ID", Value.str "10"), ("SERVICE_NAME", Value.str "X"),
            ("NAME", Value.str "Alice")]]⟩,
        activeEx, customerExStr) ∧
    customerExStr ≠ customerEx :=
  ⟨by decide, by decide⟩

/-- C2 amended: `clean_active` never changes the active input frame, and
changes the customer frame only by coercing its `CUSTOMER_ID` cells to
string in place; when those cells are already strings both inputs are
unchanged. -/
theorem c2_no_mutation_amended (a c : DF) (d : Option Value) (t : Date) (res aa cc : DF)
    (h : clean_active a c d t = Except.ok (res, aa, cc)) :
    aa = a ∧ cc = astypeStr ["CUSTOMER_ID"] c ∧
      ((∀ r ∈ c.rows, ∀ kv ∈ r, kv.1 = "CUSTOMER_ID" → ∃ s, kv.2 = Value.str s) → cc = c) := by
  rw [clean_active_ok_iff] at h
  obtain ⟨-, a4, -, hx⟩ := h
  simp only [Prod.mk.injEq] at hx
  obtain ⟨-, haa, hcc⟩ := hx
  refine ⟨haa, hcc, fun hstr => ?_⟩
  rw [hcc]
  refine astypeStr_id _ c (fun r hr kv hkv hc => ?_)
  refine hstr r hr kv hkv ?_
  simpa using hc

/-- Witness for C2 (amended): at the example input the active frame is
returned unchanged. -/
theorem c2_no_mutation_amended_witness :
    activeEx = activeEx ∧ customerExStr = astypeStr ["CUSTOMER_ID"] customerEx ∧
      ((∀ r ∈ customerEx.rows, ∀ kv ∈ r, kv.1 = "CUSTOMER_ID" → ∃ s, kv.2 = Value.str s) →
        customerExStr = customerEx) :=
  c2_no_mutation_amended activeEx customerEx none ⟨2024, 1, 5⟩
    ⟨["SNAPSHOT_DATE", "CUSTOMER_ID", "SERVICE_ID", "SERVICE_NAME", "NAME"],
      [[("SNAPSHOT_DATE", Value.str "2024-01-01"), ("CUSTOMER_ID", Value.str "1"),
        ("SERVICE_ID", Value.str "10"), ("SERVICE_NAME", Value.str "X"),
        ("NAME", Value.str "Alice")]]⟩
    activeEx customerExStr (by decide)

/-! ## C4 -/

/-- The deduplication scan only returns rows of its input. -/
theorem dropDupAux_subset (col : String) (seen : List Value) (l : List Row) :
    ∀ r ∈ dropDupAux col seen l, r ∈ l := by
  induction l generalizing seen with
  | nil => simp [dropDupAux]
  | cons r0 rs ih =>
    intro r hr
    cases hc : seen.contains (Row.get r0 col) with
    | true =>
      rw [dropDupAux, hc] at hr
      simp only [if_true] at hr
      exact List.mem_cons_of_mem r0 (ih seen r hr)
    | false =>
      rw [dropDupAux, hc] at hr
      simp only [Bool.false_eq_true, if_false, List.mem_cons] at hr
      rcases hr with rfl | hr
      · exact List.mem_cons_self r rs
      · exact List.mem_cons_of_mem r0 (ih _ r hr)

/-- Key values surviving the scan were not in the seen set. -/
theorem dropDupAux_keys_not_seen (col : String) (seen : List Value) (l : List Row) :
    ∀ v ∈ (dropDupAux col seen l).map (fun r => Row.get r col), seen.contains v = false := by
  induction l generalizing seen with
  | nil => simp [dropDupAux]
  | cons r0 rs ih =>
    intro v hv
    cases hc : seen.contains (Row.get r0 col) with
    | true =>
      rw [dropDupAux, hc] at hv
      simp only [if_true] at hv
      exact ih seen v hv
    | false =>
      rw [dropDupAux, hc] at hv
      simp only [Bool.false_eq_true, if_false, List.map_cons, List.mem_cons] at hv
      rcases hv with rfl | hv
      · exact hc
      · have h2 := ih (Row.get r0 col :: seen) v hv
        simp only [List.contains_cons, Bool.or_eq_false_iff] at h2
        exact h2.2

/-- The key column of the deduplication scan's output has no duplicates. -/
theorem dropDupAux_keys_nodup (col : String) (seen : List Value) (l : List Row) :
    ((dropDupAux col seen l).map (fun r => Row.get r col)).Nodup := by
  induction l generalizing seen with
  | nil => simp [dropDupAux]
  | cons r0 rs ih =>
    cases hc : seen.contains (Row.get r0 col) with
    | true =>
      rw [dropDupAux, hc]
      simp only [if_true]
      exact ih seen
    | false =>
      rw [dropDupAux, hc]
      simp only [Bool.false_eq_true, if_false, List.map_cons, List.nodup_cons]
      refine ⟨fun hmem => ?_, ih _⟩
      have h2 := dropDupAux_keys_not_seen col (Row.get r0 col :: seen) rs _ hmem
      simp only [List.contains_cons] at h2
      simp at h2

/-- A key value appears in the scan's output exactly when it appears in
the input and was not already seen. -/
theorem dropDupAux_keys_mem (col : String) (seen : List Value) (l : List Row) (v : Value) :
    v ∈ (dropDupAux col seen l).map (fun r => Row.get r col) ↔
      v ∈ l.map (fun r => Row.get r col) ∧ seen.contains v = false := by
  induction l generalizing seen with
  | nil => simp [dropDupAux]
  | cons r0 rs ih =>
    cases hc : seen.contains (Row.get r0 col) with
    | true =>
      rw [dropDupAux, hc]
      simp only [if_true, ih, List.map_cons, List.mem_cons]
      constructor
      · rintro ⟨h, hs⟩; exact ⟨Or.inr h, hs⟩
      · rintro ⟨h | h, hs⟩
        · subst h; rw [hc] at hs; cases hs
        · exact ⟨h, hs⟩
    | false =>
      rw [dropDupAux, hc]
      simp only [Bool.false_eq_true, if_false, List.map_cons, List.mem_cons, ih,
        List.contains_cons, Bool.or_eq_false_iff]
      constructor
      · rintro (rfl | ⟨h, h1, h2⟩)
        · exact ⟨Or.inl rfl, hc⟩
        · exact ⟨Or.inr h, h2⟩
      · rintro ⟨rfl | h, hs⟩
        · exact Or.inl rfl
        · by_cases hv : v = Row.get r0 col
          · exact Or.inl hv
          · refine Or.inr ⟨h, ?_, hs⟩
            simp only [beq_eq_false_iff_ne, ne_eq]
            exact fun he => hv he

/-- C4: the deduplicated customer table that `clean_active` joins against
has exactly one row per distinct (string-coerced) `CUSTOMER_ID`: its key
column is duplicate-free and carries exactly the key values of the
coerced input. -/
theorem c4_dedup_unique (c : DF) :
    ((dedupCustomer c).rows.map (fun r => Row.get r "CUSTOMER_ID")).Nodup ∧
    ∀ v, v ∈ (dedupCustomer c).rows.map (fun r => Row.get r "CUSTOMER_ID") ↔
      v ∈ (astypeStr ["CUSTOMER_ID"] c).rows.map (fun r => Row.get r "CUSTOMER_ID") := by
  constructor
  · exact dropDupAux_keys_nodup "CUSTOMER_ID" [] _
  · intro v
    rw [dedupCustomer, dropDuplicatesBy, dropDupRows]
    rw [dropDupAux_keys_mem]
    simp

/-! ## C9 -/

/-- When every row is accepted, the insert loop commits once at the end,
with all rows appended. -/
theorem writeRows_all_ok (ok : List Value → Bool) (table : String) (rs : List Row)
    (st : SinkState) (h : ∀ r ∈ rs, ok (r.map (fun kv => kv.2)) = true) :
    writeRows ok table rs st =
      Except.ok ⟨st.committed ++ st.pending ++ rs.map (fun r => (table, r.map (fun kv => kv.2))),
        [], st.commits + 1⟩ := by
  induction rs generalizing st with
  | nil => simp [writeRows, commitConn]
  | cons r rs ih =>
    have hok := h r (List.mem_cons_self r rs)
    rw [writeRows, insertRow, hok]
    simp only [if_true]
    rw [ih _ (fun r2 h2 => h r2 (List.mem_cons_of_mem r h2))]
    simp [List.append_assoc]

/-- When some row is rejected, the loop raises without committing:
committed rows and the commit counter are untouched. -/
theorem writeRows_fail (ok : List Value → Bool) (table : String) (rs : List Row)
    (st : SinkState) (h : ∃ r ∈ rs, ok (r.map (fun kv => kv.2)) = false) :
    ∃ st2, writeRows ok table rs st = Except.error st2 ∧
      st2.committed = st.committed ∧ st2.commits = st.commits := by
  induction rs generalizing st with
  | nil => simp at h
  | cons r rs ih =>
    cases hok : ok (r.map (fun kv => kv.2)) with
    | false =>
      refine ⟨st, ?_, rfl, rfl⟩
      rw [writeRows, insertRow, hok]
      simp
    | true =>
      obtain ⟨r0, hr0, hf⟩ := h
      rcases List.mem_cons.mp hr0 with rfl | hr0
      · rw [hok] at hf; cases hf
      · obtain ⟨st2, he, h1, h2⟩ :=
          ih { st with pending := st.pending ++ [(table, r.map (fun kv => kv.2))] } ⟨r0, hr0, hf⟩
        refine ⟨st2, ?_, by simpa using h1, by simpa using h2⟩
        rw [writeRows, insertRow, hok]
        simpa using he

/-- C9: `write_to_netezza` inserts row by row and commits exactly once,
after the last row succeeds; if any insertion fails, no commit is issued
and the committed contents of the destination are unchanged. -/
theorem c9_commit_discipline (ok : List Value → Bool) (df : DF) (table : String)
    (conn : SinkState) :
    ((∀ r ∈ df.rows, ok (r.map (fun kv => kv.2)) = true) →
      write_to_netezza ok df table conn =
        Except.ok ⟨conn.committed ++ conn.pending ++
            df.rows.map (fun r => (table, r.map (fun kv => kv.2))),
          [], conn.commits + 1⟩) ∧
    ((∃ r ∈ df.rows, ok (r.map (fun kv => kv.2)) = false) →
      ∃ st2, write_to_netezza ok df table conn = Except.error st2 ∧
        st2.committed = conn.committed ∧ st2.commits = conn.commits) :=
  ⟨fun h => writeRows_all_ok ok table df.rows conn h,
   fun h => writeRows_fail ok table df.rows conn h⟩

/-- Witness for C9: a two-row load whose second row is rejected raises
with nothing committed and no commit issued. -/
theorem c9_commit_discipline_witness :
    ∃ st2, write_to_netezza (fun vals => vals.contains (Value.int 1))
        ⟨["A"], [[("A", Value.int 1)], [("A", Value.int 2)]]⟩ "active_final"
        ⟨[], [], 0⟩ = Except.error st2 ∧
      st2.committed = ([] : List (String × List Value)) ∧ st2.commits = 0 :=
  (c9_commit_discipline (fun vals => vals.contains (Value.int 1))
      ⟨["A"], [[("A", Value.int 1)], [("A", Value.int 2)]]⟩ "active_final" ⟨[], [], 0⟩).2
    ⟨[("A", Value.int 2)], by decide, by decide⟩

/-! ## C5 -/

/-- Success inversion for `clean_order`. -/
theorem clean_order_ok_iff (o s : DF) (x : DF × DF × DF) :
    clean_order o s = Except.ok x ↔
      ∃ o1 s1, normalizeOrderDates o = Except.ok o1 ∧ normalizeOrderDates s = Except.ok s1 ∧
        x = (mergeLeft (astypeStr ["SERVICE_ID"] o1) (astypeStr ["SERVICE_ID"] s1)
              ["SERVICE_ID", "REPORT_DATE"],
            astypeStr ["SERVICE_ID"] o1, astypeStr ["SERVICE_ID"] s1) := by
  cases ho : normalizeOrderDates o with
  | error e => simp [clean_order, ho]
  | ok o1 =>
    cases hs : normalizeOrderDates s with
    | error e => simp [clean_order, ho, hs]
    | ok s1 => simp [clean_order, ho, hs, eq_comm]

/-- An unmatched left row produces exactly its null-padded output row. -/
theorem mergeRowsFor_nil (l r : DF) (keys : List String) (lr : Row)
    (h : matchRows r keys lr = []) :
    mergeRowsFor l r keys lr =
      [leftRowOut r keys lr ++ (rightNonKey r keys).map (fun c => (sufR l c, Value.null))] := by
  rw [mergeRowsFor, h]

/-- A matched left row produces one output row per match. -/
theorem mergeRowsFor_cons (l r : DF) (keys : List String) (lr : Row)
    (h : matchRows r keys lr ≠ []) :
    mergeRowsFor l r keys lr =
      (matchRows r keys lr).map (fun rr =>
        leftRowOut r keys lr ++ (rightNonKey r keys).map (fun c => (sufR l c, Row.get rr c))) := by
  rw [mergeRowsFor]
  cases hm : matchRows r keys lr with
  | nil => exact absurd hm h
  | cons m ms => rfl

/-- Output-row count contributed by one left row: one when unmatched,
otherwise the number of matches. -/
theorem length_mergeRowsFor (l r : DF) (keys : List String) (lr : Row) :
    (mergeRowsFor l r keys lr).length =
      if (matchRows r keys lr).length = 0 then 1 else (matchRows r keys lr).length := by
  cases hm : matchRows r keys lr with
  | nil => rw [mergeRowsFor_nil l r keys lr hm]; rfl
  | cons m ms =>
    rw [mergeRowsFor_cons l r keys lr (by rw [hm]; simp), hm]
    simp

/-- C5: `clean_order` left-joins order with service on
`(SERVICE_ID, REPORT_DATE)`: the output has one row per match of each
order row (fan-out, no deduplication of either side) plus one null-padded
row for each unmatched order row, every unmatched order row appears with
null catalog attributes, and every (order row, matching service row) pair
appears combined. -/
theorem c5_left_join_shape (o s : DF) (res o2 s2 : DF)
    (h : clean_order o s = Except.ok (res, o2, s2)) :
    res.rows.length = (o2.rows.map (fun lr =>
        if (matchRows s2 ["SERVICE_ID", "REPORT_DATE"] lr).length = 0 then 1
        else (matchRows s2 ["SERVICE_ID", "REPORT_DATE"] lr).length)).sum ∧
    (∀ lr ∈ o2.rows, matchRows s2 ["SERVICE_ID", "REPORT_DATE"] lr = [] →
      (leftRowOut s2 ["SERVICE_ID", "REPORT_DATE"] lr ++
        (rightNonKey s2 ["SERVICE_ID", "REPORT_DATE"]).map (fun c => (sufR o2 c, Value.null)))
        ∈ res.rows) ∧
    (∀ lr ∈ o2.rows, ∀ rr ∈ matchRows s2 ["SERVICE_ID", "REPORT_DATE"] lr,
      (leftRowOut s2 ["SERVICE_ID", "REPORT_DATE"] lr ++
        (rightNonKey s2 ["SERVICE_ID", "REPORT_DATE"]).map (fun c => (sufR o2 c, Row.get rr c)))
        ∈ res.rows) := by
  rw [clean_order_ok_iff] at h
  obtain ⟨o1, s1, -, -, hx⟩ := h
  simp only [Prod.mk.injEq] at hx
  obtain ⟨hres, ho2, hs2⟩ := hx
  have hrows : res.rows = o2.rows.flatMap (mergeRowsFor o2 s2 ["SERVICE_ID", "REPORT_DATE"]) := by
    rw [hres, ho2, hs2]; rfl
  refine ⟨?_, ?_, ?_⟩
  · rw [hrows, List.length_flatMap]
    congr 1
    exact List.map_congr_left (fun lr _ => length_mergeRowsFor o2 s2 _ lr)
  · intro lr hlr hm
    rw [hrows]
    refine List.mem_flatMap.mpr ⟨lr, hlr, ?_⟩
    rw [mergeRowsFor_nil o2 s2 _ lr hm]
    exact List.mem_singleton_self _
  · intro lr hlr rr hrr
    rw [hrows]
    refine List.mem_flatMap.mpr ⟨lr, hlr, ?_⟩
    rw [mergeRowsFor_cons o2 s2 _ lr (by intro hnil; rw [hnil] at hrr; cases hrr)]
    exact List.mem_map_of_mem _ hrr

/-- The spec's fan-out example: one order row. -/
def orderEx : DF :=
  ⟨["ORDER_ID", "SERVICE_ID", "REPORT_DATE"],
   [[("ORDER_ID", Value.str "o1"), ("SERVICE_ID", Value.str "1"),
     ("REPORT_DATE", Value.str "2024-01-01")]]⟩

/-- The spec's fan-out example: two service rows with the same key. -/
def serviceEx : DF :=
  ⟨["SERVICE_ID", "REPORT_DATE", "X"],
   [[("SERVICE_ID", Value.str "1"), ("REPORT_DATE", Value.str "2024-01-01"), ("X", Value.str "a")],
    [("SERVICE_ID", Value.str "1"), ("REPORT_DATE", Value.str "2024-01-01"), ("X", Value.str "b")]]⟩

/-- Witness for C5: the spec's fan-out example — one order row matching
two duplicate service keys yields two output rows. -/
theorem c5_left_join_shape_witness :
    (⟨["ORDER_ID", "SERVICE_ID", "REPORT_DATE", "X"],
      [[("ORDER_ID", Value.str "o1"), ("SERVICE_ID", Value.str "1"),
        ("REPORT_DATE", Value.str "2024-01-01"), ("X", Value.str "a")],
       [("ORDER_ID", Value.str "o1"), ("SERVICE_ID", Value.str "1"),
        ("REPORT_DATE", Value.str "2024-01-01"), ("X", Value.str "b")]]⟩ : DF).rows.length =
      (orderEx.rows.map (fun lr =>
        if (matchRows serviceEx ["SERVICE_ID", "REPORT_DATE"] lr).length = 0 then 1
        else (matchRows serviceEx ["SERVICE_ID", "REPORT_DATE"] lr).length)).sum :=
  (c5_left_join_shape orderEx serviceEx
    ⟨["ORDER_ID", "SERVICE_ID", "REPORT_DATE", "X"],
      [[("ORDER_ID", Value.str "o1"), ("SERVICE_ID", Value.str "1"),
        ("REPORT_DATE", Value.str "2024-01-01"), ("X", Value.str "a")],
       [("ORDER_ID", Value.str "o1"), ("SERVICE_ID", Value.str "1"),
        ("REPORT_DATE", Value.str "2024-01-01"), ("X", Value.str "b")]]⟩
    orderEx serviceEx (by decide)).1

/-! ## C6 -/

/-- C6: join keys are coerced to string before joining, so an order row
with integer `SERVICE_ID` `n` matches a service row with the string
rendering of `n`, and symmetrically; the match is not dropped and the
combined row carries the catalog attributes. -/
theorem c6_key_coercion (n : Int) (D : String) (dd : Date)
    (hD : parseFlexChars D.data = some dd) :
    clean_order
      ⟨["ORDER_ID", "SERVICE_ID", "REPORT_DATE"],
       [[("ORDER_ID", Value.str "o1"), ("SERVICE_ID", Value.int n), ("REPORT_DATE", Value.str D)]]⟩
      ⟨["SERVICE_ID", "REPORT_DATE", "X"],
       [[("SERVICE_ID", Value.str (toString n)), ("REPORT_DATE", Value.str D), ("X", Value.str "a")]]⟩
      = Except.ok (⟨["ORDER_ID", "SERVICE_ID", "REPORT_DATE", "X"],
          [[("ORDER_ID", Value.str "o1"), ("SERVICE_ID", Value.str (toString n)),
            ("REPORT_DATE", Value.str (isoFmt dd)), ("X", Value.str "a")]]⟩,
        ⟨["ORDER_ID", "SERVICE_ID", "REPORT_DATE"],
         [[("ORDER_ID", Value.str "o1"), ("SERVICE_ID", Value.str (toString n)),
           ("REPORT_DATE", Value.str (isoFmt dd))]]⟩,
        ⟨["SERVICE_ID", "REPORT_DATE", "X"],
         [[("SERVICE_ID", Value.str (toString n)), ("REPORT_DATE", Value.str (isoFmt dd)),
           ("X", Value.str "a")]]⟩) ∧
    clean_order
      ⟨["ORDER_ID", "SERVICE_ID", "REPORT_DATE"],
       [[("ORDER_ID", Value.str "o1"), ("SERVICE_ID", Value.str (toString n)),
         ("REPORT_DATE", Value.str D)]]⟩
      ⟨["SERVICE_ID", "REPORT_DATE", "X"],
       [[("SERVICE_ID", Value.int n), ("REPORT_DATE", Value.str D), ("X", Value.str "a")]]⟩
      = Except.ok (⟨["ORDER_ID", "SERVICE_ID", "REPORT_DATE", "X"],
          [[("ORDER_ID", Value.str "o1"), ("SERVICE_ID", Value.str (toString n)),
            ("REPORT_DATE", Value.str (isoFmt dd)), ("X", Value.str "a")]]⟩,
        ⟨["ORDER_ID", "SERVICE_ID", "REPORT_DATE"],
         [[("ORDER_ID", Value.str "o1"), ("SERVICE_ID", Value.str (toString n)),
           ("REPORT_DATE", Value.str (isoFmt dd))]]⟩,
        ⟨["SERVICE_ID", "REPORT_DATE", "X"],
         [[("SERVICE_ID", Value.str (toString n)), ("REPORT_DATE", Value.str (isoFmt dd)),
           ("X", Value.str "a")]]⟩) := by
  constructor <;>
    simp [clean_order, normalizeOrderDates, toDatetimeCol, mapRowsExcept,
      mapCellsExcept, parseCell, parseFlexV, hD, strftimeCol, strftimeCell, astypeStr, astypeRow,
      valueToStr, mergeLeft, mergeRowsFor, matchRows, Row.get, leftRowOut, rightNonKey, sufL, sufR,
      List.find?, List.filter, List.flatMap]

/-- Witness for C6: `SERVICE_ID` `42` against `"42"` on
`REPORT_DATE` `2024-01-01`. -/
theorem c6_key_coercion_witness :
    clean_order
      ⟨["ORDER_ID", "SERVICE_ID", "REPORT_DATE"],
       [[("ORDER_ID", Value.str "o1"), ("SERVICE_ID", Value.int 42),
         ("REPORT_DATE", Value.str "2024-01-01")]]⟩
      ⟨["SERVICE_ID", "REPORT_DATE", "X"],
       [[("SERVICE_ID", Value.str (toString (42 : Int))), ("REPORT_DATE", Value.str "2024-01-01"),
         ("X", Value.str "a")]]⟩
      = Except.ok (⟨["ORDER_ID", "SERVICE_ID", "REPORT_DATE", "X"],
          [[("ORDER_ID", Value.str "o1"), ("SERVICE_ID", Value.str (toString (42 : Int))),
            ("REPORT_DATE", Value.str (isoFmt ⟨2024, 1, 1⟩)), ("X", Value.str "a")]]⟩,
        ⟨["ORDER_ID", "SERVICE_ID", "REPORT_DATE"],
         [[("ORDER_ID", Value.str "o1"), ("SERVICE_ID", Value.str (toString (42 : Int))),
           ("REPORT_DATE", Value.str (isoFmt ⟨2024, 1, 1⟩))]]⟩,
        ⟨["SERVICE_ID", "REPORT_DATE", "X"],
         [[("SERVICE_ID", Value.str (toString (42 : Int))),
           ("REPORT_DATE", Value.str (isoFmt ⟨2024, 1, 1⟩)), ("X", Value.str "a")]]⟩) :=
  (c6_key_coercion 42 "2024-01-01" ⟨2024, 1, 1⟩ (by decide)).1

/-! ## Date parse and print lemmas -/

theorem digitVal_digitChar (k : Nat) (h : k < 10) : digitVal (digitChar k) = k := by
  interval_cases k <;> rfl

theorem isDigitCh_digitChar (k : Nat) (h : k < 10) : isDigitCh (digitChar k) = true := by
  interval_cases k <;> rfl

theorem daysInMonth_le (y m : Nat) : daysInMonth y m ≤ 31 := by
  unfold daysInMonth
  split
  · split <;> omega
  · split <;> omega

theorem mkValidDate_valid (y m d : Nat) (dt : Date) (h : mkValidDate y m d = some dt) :
    dateValid dt = true := by
  unfold mkValidDate at h
  by_cases hc : dateValid ⟨y, m, d⟩ = true
  · rw [if_pos hc] at h; cases h; exact hc
  · rw [if_neg hc] at h; cases h

theorem parseIsoChars_valid (l : List Char) (dt : Date) (h : parseIsoChars l = some dt) :
    dateValid dt = true := by
  unfold parseIsoChars at h
  split at h
  · split at h
    · exact mkValidDate_valid _ _ _ _ h
    · cases h
  · cases h

theorem parseSlashMDY_valid (l : List Char) (dt : Date) (h : parseSlashMDY l = some dt) :
    dateValid dt = true := by
  unfold parseSlashMDY at h
  split at h
  · split at h
    · exact mkValidDate_valid _ _ _ _ h
    · cases h
  · cases h

theorem parseDMYChars_valid (l : List Char) (dt : Date) (h : parseDMYChars l = some dt) :
    dateValid dt = true := by
  unfold parseDMYChars at h
  split at h
  · split at h
    · exact mkValidDate_valid _ _ _ _ h
    · cases h
  · cases h

theorem parseFlexChars_valid (l : List Char) (dt : Date) (h : parseFlexChars l = some dt) :
    dateValid dt = true := by
  unfold parseFlexChars at h
  cases hi : parseIsoChars l with
  | some dt2 => rw [hi] at h; cases h; exact parseIsoChars_valid l dt hi
  | none => rw [hi] at h; exact parseSlashMDY_valid l dt h

theorem parseFlexV_valid (v : Value) (dt : Date) (h : parseFlexV v = some dt) :
    dateValid dt = true := by
  cases v with
  | str s => exact parseFlexChars_valid s.data dt h
  | int n => cases h
  | null => cases h
  | date d2 => cases h

theorem parseDMYV_valid (v : Value) (dt : Date) (h : parseDMYV v = some dt) :
    dateValid dt = true := by
  cases v with
  | str s => exact parseDMYChars_valid s.data dt h
  | int n => cases h
  | null => cases h
  | date d2 => cases h

/-- Printing a valid date with `strftime('%Y-%m-%d')` and parsing it back
is the identity. -/
theorem parseIsoChars_isoChars (dt : Date) (h : dateValid dt = true) :
    parseIsoChars (isoChars dt) = some dt := by
  obtain ⟨y, m, d⟩ := dt
  simp only [dateValid, Bool.and_eq_true, decide_eq_true_eq] at h
  obtain ⟨⟨⟨⟨⟨hy1, hy⟩, hm1⟩, hm⟩, hd1⟩, hd⟩ := h
  have hd31 : d ≤ 31 := le_trans hd (daysInMonth_le y m)
  have h10 : ∀ k : Nat, k % 10 < 10 := fun k => Nat.mod_lt _ (by norm_num)
  have hdig : ∀ k : Nat, isDigitCh (digitChar (k % 10)) = true :=
    fun k => isDigitCh_digitChar _ (h10 k)
  have hval : ∀ k : Nat, digitVal (digitChar (k % 10)) = k % 10 :=
    fun k => digitVal_digitChar _ (h10 k)
  simp only [isoChars, pad4, pad2, List.cons_append, List.nil_append, parseIsoChars,
    hdig, hval, beq_self_eq_true, Bool.and_self, Bool.and_true, Bool.true_and, if_true]
  have hY : ((y / 1000 % 10 * 10 + y / 100 % 10) * 10 + y / 10 % 10) * 10 + y % 10 = y := by
    omega
  have hM : m / 10 % 10 * 10 + m % 10 = m := by omega
  have hD : d / 10 % 10 * 10 + d % 10 = d := by omega
  rw [hY, hM, hD, mkValidDate]
  have hv : dateValid ⟨y, m, d⟩ = true := by
    simp only [dateValid, Bool.and_eq_true, decide_eq_true_eq]
    omega
  rw [if_pos hv]

/-- The flexible parser inverts `strftime('%Y-%m-%d')` on valid dates. -/
theorem parseFlexChars_isoChars (dt : Date) (h : dateValid dt = true) :
    parseFlexChars (isoChars dt) = some dt := by
  rw [parseFlexChars, parseIsoChars_isoChars dt h]

/-- Cell-level version of the round trip. -/
theorem parseFlexV_isoFmt (dt : Date) (h : dateValid dt = true) :
    parseFlexV (Value.str (isoFmt dt)) = some dt :=
  parseFlexChars_isoChars dt h

/-! ## Column-parse machinery -/

/-- Pointwise description of a successful cell-parse pass. -/
theorem mapCellsExcept_parseCell_ok (p : Value → Option Date) (col : String) (r r2 : Row)
    (h : mapCellsExcept (parseCell p col) r = Except.ok r2) :
    List.Forall₂ (fun kv kv2 => kv2.1 = kv.1 ∧
      (kv.1 = col → ∃ dt, p kv.2 = some dt ∧ kv2.2 = Value.date dt) ∧
      (kv.1 ≠ col → kv2 = kv)) r r2 := by
  induction r generalizing r2 with
  | nil => cases h; exact List.Forall₂.nil
  | cons kv r ih =>
    rw [mapCellsExcept] at h
    cases hc : parseCell p col kv with
    | error e => rw [hc] at h; cases h
    | ok kvp =>
      rw [hc] at h
      cases hrest : mapCellsExcept (parseCell p col) r with
      | error e => rw [hrest] at h; cases h
      | ok rrest =>
        rw [hrest] at h
        cases h
        refine List.Forall₂.cons ?_ (ih rrest hrest)
        rw [parseCell] at hc
        cases hk : kv.1 == col with
        | true =>
          rw [hk] at hc
          simp only [if_true] at hc
          cases hp : p kv.2 with
          | none => rw [hp] at hc; cases hc
          | some dt =>
            rw [hp] at hc
            cases hc
            have hke : kv.1 = col := by simpa using hk
            exact ⟨rfl, fun _ => ⟨dt, rfl, rfl⟩, fun hne => absurd hke hne⟩
        | false =>
          rw [hk] at hc
          simp only [Bool.false_eq_true, if_false] at hc
          cases hc
          have hke : ¬(kv.1 = col) := by simpa using hk
          exact ⟨rfl, fun he => absurd he hke, fun _ => rfl⟩

/-- A failing cell-parse pass always raises the column's format error. -/
theorem mapCellsExcept_parseCell_error_eq (p : Value → Option Date) (col : String) (r : Row)
    (e : Err) (h : mapCellsExcept (parseCell p col) r = Except.error e) :
    e = Err.formatError col := by
  induction r with
  | nil => cases h
  | cons kv r ih =>
    rw [mapCellsExcept] at h
    cases hc : parseCell p col kv with
    | error e2 =>
      rw [hc] at h
      cases h
      rw [parseCell] at hc
      cases hk : kv.1 == col with
      | true =>
        rw [hk] at hc
        simp only [if_true] at hc
        cases hp : p kv.2 with
        | none => rw [hp] at hc; cases hc; rfl
        | some dt => rw [hp] at hc; cases hc
      | false => rw [hk] at hc; simp only [Bool.false_eq_true, if_false] at hc; cases hc
    | ok kvp =>
      rw [hc] at h
      cases hrest : mapCellsExcept (parseCell p col) r with
      | error e2 => rw [hrest] at h; cases h; exact ih hrest
      | ok rrest => rw [hrest] at h; cases h

/-- A cell of the column that fails to parse aborts the whole pass with
the column's format error. -/
theorem mapCellsExcept_parseCell_fail (p : Value → Option Date) (col : String) (r : Row)
    (h : ∃ kv ∈ r, kv.1 = col ∧ p kv.2 = none) :
    mapCellsExcept (parseCell p col) r = Except.error (Err.formatError col) := by
  induction r with
  | nil => simp at h
  | cons kv0 r ih =>
    obtain ⟨kv, hkv, hcol, hnone⟩ := h
    rw [mapCellsExcept]
    cases hc : parseCell p col kv0 with
    | error e =>
      have he : e = Err.formatError col := by
        rw [parseCell] at hc
        cases hk : kv0.1 == col with
        | true =>
          rw [hk] at hc
          simp only [if_true] at hc
          cases hp : p kv0.2 with
          | none => rw [hp] at hc; cases hc; rfl
          | some dt => rw [hp] at hc; cases hc
        | false =>
          rw [hk] at hc
          simp only [Bool.false_eq_true, if_false] at hc
          cases hc
      simp [he]
    | ok kvp =>
      rcases List.mem_cons.mp hkv with rfl | hkv2
      · exfalso
        rw [parseCell] at hc
        have hk : (kv.1 == col) = true := by simpa using hcol
        rw [hk] at hc
        simp only [if_true] at hc
        rw [hnone] at hc
        cases hc
      · simp [ih ⟨kv, hkv2, hcol, hnone⟩]

/-- Successful cell-parse: every cell of the column parsed. -/
theorem mapCellsExcept_parseCell_ok_cells (p : Value → Option Date) (col : String) (r r2 : Row)
    (hval : ∀ v dt, p v = some dt → dateValid dt = true)
    (h : mapCellsExcept (parseCell p col) r = Except.ok r2) :
    ∀ kv ∈ r2, kv.1 = col → ∃ dt, dateValid dt = true ∧ kv.2 = Value.date dt := by
  induction r generalizing r2 with
  | nil => cases h; simp
  | cons kv0 r ih =>
    rw [mapCellsExcept] at h
    cases hc : parseCell p col kv0 with
    | error e => rw [hc] at h; cases h
    | ok kvp =>
      rw [hc] at h
      cases hrest : mapCellsExcept (parseCell p col) r with
      | error e => rw [hrest] at h; cases h
      | ok rrest =>
        rw [hrest] at h
        cases h
        intro kv hkv hcol
        rcases List.mem_cons.mp hkv with rfl | hkv2
        · rw [parseCell] at hc
          cases hk : kv0.1 == col with
          | true =>
            rw [hk] at hc
            simp only [if_true] at hc
            cases hp : p kv0.2 with
            | none => rw [hp] at hc; cases hc
            | some dt =>
              rw [hp] at hc
              cases hc
              exact ⟨dt, hval _ _ hp, rfl⟩
          | false =>
            rw [hk] at hc
            simp only [Bool.false_eq_true, if_false] at hc
            cases hc
            exact absurd hcol (by simpa using hk)
        · exact ih rrest hrest kv hkv2 hcol

/-- Pointwise description of a successful row pass. -/
theorem mapRowsExcept_ok (f : Row → Except Err Row) (l l2 : List Row)
    (h : mapRowsExcept f l = Except.ok l2) :
    List.Forall₂ (fun r r2 => f r = Except.ok r2) l l2 := by
  induction l generalizing l2 with
  | nil => cases h; exact List.Forall₂.nil
  | cons r l ih =>
    rw [mapRowsExcept] at h
    cases hr : f r with
    | error e => rw [hr] at h; cases h
    | ok rp =>
      rw [hr] at h
      cases hrest : mapRowsExcept f l with
      | error e => rw [hrest] at h; cases h
      | ok lrest =>
        rw [hrest] at h
        cases h
        exact List.Forall₂.cons hr (ih lrest hrest)

/-- A failing row aborts the whole row pass with the same error. -/
theorem mapRowsExcept_fail (f : Row → Except Err Row) (l : List Row) (e0 : Err)
    (herr : ∀ r e, f r = Except.error e → e = e0)
    (h : ∃ r ∈ l, f r = Except.error e0) :
    mapRowsExcept f l = Except.error e0 := by
  induction l with
  | nil => simp at h
  | cons r0 l ih =>
    obtain ⟨r, hr, hfail⟩ := h
    rw [mapRowsExcept]
    cases hc : f r0 with
    | error e => rw [herr r0 e hc]
    | ok rp =>
      rcases List.mem_cons.mp hr with rfl | hr2
      · rw [hfail] at hc; cases hc
      · rw [ih ⟨r, hr2, hfail⟩]

/-- Membership on the right of a pointwise relation has a source on the
left. -/
theorem forall₂_mem_right {α β : Type} {R : α → β → Prop} {l : List α} {l2 : List β}
    (h : List.Forall₂ R l l2) : ∀ b ∈ l2, ∃ a ∈ l, R a b := by
  induction h with
  | nil => simp
  | cons hr hrest ih =>
    intro b hb
    rcases List.mem_cons.mp hb with rfl | hb2
    · exact ⟨_, List.mem_cons_self _ _, hr⟩
    · obtain ⟨a, ha, har⟩ := ih b hb2
      exact ⟨a, List.mem_cons_of_mem _ ha, har⟩

/-! ## C7 -/

/-- Transport of the parse specification through
`dt.strftime('%Y-%m-%d')`. -/
theorem strftimeCell_spec (p : Value → Option Date) (col : String) (kv kvmid : String × Value)
    (hkey : kvmid.1 = kv.1)
    (hcol : kv.1 = col → ∃ dt, p kv.2 = some dt ∧ kvmid.2 = Value.date dt)
    (hncol : kv.1 ≠ col → kvmid = kv) :
    (strftimeCell kvmid col).1 = kv.1 ∧
    (kv.1 = col → ∃ dt, p kv.2 = some dt ∧ (strftimeCell kvmid col).2 = Value.str (isoFmt dt)) ∧
    (kv.1 ≠ col → strftimeCell kvmid col = kv) := by
  by_cases hk : kv.1 = col
  · obtain ⟨dt, hp2, hval⟩ := hcol hk
    have hb : (kvmid.1 == col) = true := by rw [hkey]; simpa using hk
    rw [strftimeCell, hb]
    simp only [if_true, hval]
    exact ⟨hkey, fun _ => ⟨dt, hp2, rfl⟩, fun hne => absurd hk hne⟩
  · have hkv : kvmid = kv := hncol hk
    have hb : (kvmid.1 == col) = false := by rw [hkey]; simpa using hk
    rw [strftimeCell, hb]
    simp only [Bool.false_eq_true, if_false]
    exact ⟨hkey, fun he => absurd he hk, fun _ => hkv⟩

/-- C7: `clean_active` parses `SNAPSHOT_DATE` under the day/month/year
format and re-emits each value as a `YYYY-MM-DD` string (other cells
untouched, pointwise); if any value of the column fails to parse, the
whole call fails with the column's format error and produces no output. -/
theorem c7_date_parse (a c : DF) (d : Option Value) (t : Date) (hd : argOk d) :
    ((∃ r ∈ (astypeStr ["CUSTOMER_ID", "SERVICE_ID", "SERVICE_NAME"]
          (renameCol "REPORT_DATE" "SNAPSHOT_DATE" a)).rows,
        ∃ kv ∈ r, kv.1 = "SNAPSHOT_DATE" ∧ parseDMYV kv.2 = none) →
      clean_active a c d t = Except.error (Err.formatError "SNAPSHOT_DATE")) ∧
    (∀ df df2, normalizeActiveDates df = Except.ok df2 →
      List.Forall₂ (fun r r2 => List.Forall₂ (fun kv kv2 =>
        kv2.1 = kv.1 ∧
        (kv.1 = "SNAPSHOT_DATE" → ∃ dt, parseDMYV kv.2 = some dt ∧ kv2.2 = Value.str (isoFmt dt)) ∧
        (kv.1 ≠ "SNAPSHOT_DATE" → kv2 = kv)) r r2) df.rows df2.rows) := by
  constructor
  · intro hex
    obtain ⟨rd, hp⟩ := parseArg_ok_of_argOk d t hd
    have hfail : mapRowsExcept (mapCellsExcept (parseCell parseDMYV "SNAPSHOT_DATE"))
        (astypeStr ["CUSTOMER_ID", "SERVICE_ID", "SERVICE_NAME"]
          (renameCol "REPORT_DATE" "SNAPSHOT_DATE" a)).rows =
        Except.error (Err.formatError "SNAPSHOT_DATE") := by
      obtain ⟨r, hr, hcell⟩ := hex
      exact mapRowsExcept_fail _ _ _
        (fun r2 e he => mapCellsExcept_parseCell_error_eq _ _ r2 e he)
        ⟨r, hr, mapCellsExcept_parseCell_fail _ _ r hcell⟩
    have hnorm : normalizeActiveDates (astypeStr ["CUSTOMER_ID", "SERVICE_ID", "SERVICE_NAME"]
        (renameCol "REPORT_DATE" "SNAPSHOT_DATE" a)) =
        Except.error (Err.formatError "SNAPSHOT_DATE") := by
      rw [normalizeActiveDates, toDatetimeCol, hfail]
    simp [clean_active, hp, hnorm]
  · intro df df2 hn
    rw [normalizeActiveDates] at hn
    cases ht : toDatetimeCol parseDMYV "SNAPSHOT_DATE" df with
    | error e => rw [ht] at hn; cases hn
    | ok mid =>
      rw [ht] at hn
      cases hn
      rw [toDatetimeCol] at ht
      cases hm : mapRowsExcept (mapCellsExcept (parseCell parseDMYV "SNAPSHOT_DATE")) df.rows with
      | error e => rw [hm] at ht; cases ht
      | ok rows2 =>
        rw [hm] at ht
        cases ht
        have h2 := mapRowsExcept_ok _ _ _ hm
        show List.Forall₂ _ df.rows
          (rows2.map (fun r => r.map (fun kv => strftimeCell kv "SNAPSHOT_DATE")))
        rw [List.forall₂_map_right_iff]
        refine h2.imp ?_
        intro r rmid hok
        have h3 := mapCellsExcept_parseCell_ok _ _ _ _ hok
        rw [List.forall₂_map_right_iff]
        refine h3.imp ?_
        rintro kv kvmid ⟨hkey, hcol, hncol⟩
        exact strftimeCell_spec parseDMYV "SNAPSHOT_DATE" kv kvmid hkey hcol hncol

/-- Witness for C7: the example frame with an unparseable
`SNAPSHOT_DATE` value aborts the whole call with the format error. -/
theorem c7_date_parse_witness :
    clean_active
      ⟨["REPORT_DATE", "CUSTOMER_ID", "SERVICE_ID", "SERVICE_NAME", "SUBSCRIPTION_STATUS"],
       [[("REPORT_DATE", Value.str "2024-13-45"), ("CUSTOMER_ID", Value.int 1),
         ("SERVICE_ID", Value.int 10), ("SERVICE_NAME", Value.str "X"),
         ("SUBSCRIPTION_STATUS", Value.str "active")]]⟩
      customerEx none ⟨2024, 1, 5⟩ = Except.error (Err.formatError "SNAPSHOT_DATE") :=
  (c7_date_parse
    ⟨["REPORT_DATE", "CUSTOMER_ID", "SERVICE_ID", "SERVICE_NAME", "SUBSCRIPTION_STATUS"],
     [[("REPORT_DATE", Value.str "2024-13-45"), ("CUSTOMER_ID", Value.int 1),
       ("SERVICE_ID", Value.int 10), ("SERVICE_NAME", Value.str "X"),
       ("SUBSCRIPTION_STATUS", Value.str "active")]]⟩
    customerEx none ⟨2024, 1, 5⟩ trivial).1
    ⟨[("SNAPSHOT_DATE", Value.str "2024-13-45"), ("CUSTOMER_ID", Value.str "1"),
      ("SERVICE_ID", Value.str "10"), ("SERVICE_NAME", Value.str "X"),
      ("SUBSCRIPTION_STATUS", Value.str "active")],
     by decide,
     ("SNAPSHOT_DATE", Value.str "2024-13-45"), by decide, rfl, by decide⟩

/-! ## C8 -/

/-- Every cell of the column is the canonical print of a valid date. -/
def isoCol (col : String) (r : Row) : Prop :=
  ∀ kv ∈ r, kv.1 = col → ∃ dt, dateValid dt = true ∧ kv.2 = Value.str (isoFmt dt)

/-- Parsing and re-printing a canonically printed column is the
identity, cell pass. -/
theorem cells_fix (col : String) (r : Row) (h : isoCol col r) :
    ∃ rmid, mapCellsExcept (parseCell parseFlexV col) r = Except.ok rmid ∧
      rmid.map (fun kv => strftimeCell kv col) = r := by
  induction r with
  | nil => exact ⟨[], rfl, rfl⟩
  | cons kv r ih =>
    obtain ⟨rmid, h1, h2⟩ := ih (fun kv2 hm => h kv2 (List.mem_cons_of_mem _ hm))
    obtain ⟨k1, v1⟩ := kv
    cases hk : k1 == col with
    | true =>
      have hkeq : k1 = col := by simpa using hk
      obtain ⟨dt, hvalid, hval⟩ := h (k1, v1) (List.mem_cons_self _ _) hkeq
      simp only at hval
      refine ⟨(k1, Value.date dt) :: rmid, ?_, ?_⟩
      · rw [mapCellsExcept, parseCell]
        simp only [hk, if_true, hval, parseFlexV_isoFmt dt hvalid, h1]
      · rw [List.map_cons, h2]
        have hh : strftimeCell (k1, Value.date dt) col = (k1, Value.str (isoFmt dt)) := by
          simp [strftimeCell, hk]
        rw [hh, hval]
    | false =>
      refine ⟨(k1, v1) :: rmid, ?_, ?_⟩
      · rw [mapCellsExcept, parseCell]
        simp only [hk, Bool.false_eq_true, if_false, h1]
      · rw [List.map_cons, h2]
        have hh : strftimeCell (k1, v1) col = (k1, v1) := by
          simp [strftimeCell, hk]
        rw [hh]

/-- Parsing and re-printing canonically printed columns is the identity,
row pass. -/
theorem rows_fix (col : String) (l : List Row) (h : ∀ r ∈ l, isoCol col r) :
    ∃ lmid, mapRowsExcept (mapCellsExcept (parseCell parseFlexV col)) l = Except.ok lmid ∧
      lmid.map (fun r => r.map (fun kv => strftimeCell kv col)) = l := by
  induction l with
  | nil => exact ⟨[], rfl, rfl⟩
  | cons r l ih =>
    obtain ⟨lmid, h1, h2⟩ := ih (fun r2 hm => h r2 (List.mem_cons_of_mem _ hm))
    obtain ⟨rmid, hr1, hr2⟩ := cells_fix col r (h r (List.mem_cons_self _ _))
    refine ⟨rmid :: lmid, ?_, ?_⟩
    · rw [mapRowsExcept]
      simp only [hr1, h1]
    · simp only [List.map_cons, hr2, h2]

/-- Re-normalizing an already normalized frame is the identity. -/
theorem normalizeOrderDates_fix (df : DF) (h : ∀ r ∈ df.rows, isoCol "REPORT_DATE" r) :
    normalizeOrderDates df = Except.ok df := by
  obtain ⟨lmid, h1, h2⟩ := rows_fix "REPORT_DATE" df.rows h
  rw [normalizeOrderDates, toDatetimeCol, h1]
  simp only [strftimeCol]
  rw [h2]

/-- A successful date normalization leaves every `REPORT_DATE` cell a
canonically printed valid date. -/
theorem normalizeOrderDates_ok_cells (df df2 : DF)
    (h : normalizeOrderDates df = Except.ok df2) :
    ∀ r2 ∈ df2.rows, isoCol "REPORT_DATE" r2 := by
  rw [normalizeOrderDates] at h
  cases ht : toDatetimeCol parseFlexV "REPORT_DATE" df with
  | error e => rw [ht] at h; cases h
  | ok mid =>
    rw [ht] at h
    cases h
    rw [toDatetimeCol] at ht
    cases hm : mapRowsExcept (mapCellsExcept (parseCell parseFlexV "REPORT_DATE")) df.rows with
    | error e => rw [hm] at ht; cases ht
    | ok rows2 =>
      rw [hm] at ht
      cases ht
      intro r2 hr2
      simp only [strftimeCol] at hr2
      obtain ⟨rmid, hrmid, rfl⟩ := List.mem_map.mp hr2
      obtain ⟨rsrc, hrsrc, hok⟩ := forall₂_mem_right (mapRowsExcept_ok _ _ _ hm) rmid hrmid
      have hcells := mapCellsExcept_parseCell_ok_cells parseFlexV "REPORT_DATE" rsrc rmid
        parseFlexV_valid hok
      intro kv2 hkv2 hcol
      obtain ⟨kvmid, hkvmid, rfl⟩ := List.mem_map.mp hkv2
      cases hk : kvmid.1 == "REPORT_DATE" with
      | true =>
        have hkeq : kvmid.1 = "REPORT_DATE" := by simpa using hk
        obtain ⟨dt, hvalid, hdate⟩ := hcells kvmid hkvmid hkeq
        refine ⟨dt, hvalid, ?_⟩
        simp [strftimeCell, hk, hdate]
      | false =>
        exfalso
        have hid : strftimeCell kvmid "REPORT_DATE" = kvmid := by
          simp [strftimeCell, hk]
        rw [hid] at hcol
        exact absurd hcol (by simpa using hk)

/-- String coercion of other columns preserves a canonically printed
date column. -/
theorem astypeRow_isoCol (cs : List String) (col : String) (hno : cs.contains col = false)
    (r : Row) (h : isoCol col r) : isoCol col (astypeRow cs r) := by
  intro kv2 hkv2 hcol
  obtain ⟨kv, hkv, hmap⟩ := List.mem_map.mp hkv2
  cases hc : cs.contains kv.1 with
  | true =>
    rw [hc] at hmap
    simp only [if_true] at hmap
    rw [← hmap] at hcol
    simp only at hcol
    rw [hcol] at hc
    rw [hc] at hno
    cases hno
  | false =>
    rw [hc] at hmap
    simp only [Bool.false_eq_true, if_false] at hmap
    rw [← hmap] at hcol ⊢
    exact h kv hkv hcol

/-- `astype(str)` is idempotent on a row. -/
theorem astypeRow_idem (cs : List String) (r : Row) :
    astypeRow cs (astypeRow cs r) = astypeRow cs r := by
  simp only [astypeRow, List.map_map]
  refine List.map_congr_left (fun kv _ => ?_)
  obtain ⟨k1, v1⟩ := kv
  cases hc : cs.contains k1 with
  | true =>
    have hm : k1 ∈ cs := by simpa using hc
    simp [Function.comp, hm, valueToStr]
  | false =>
    have hm : ¬(k1 ∈ cs) := by simpa using hc
    simp [Function.comp, hm]

/-- `astype(str)` is idempotent on a frame. -/
theorem astypeStr_idem (cs : List String) (df : DF) :
    astypeStr cs (astypeStr cs df) = astypeStr cs df := by
  simp only [astypeStr, DF.mk.injEq, true_and, List.map_map]
  exact List.map_congr_left (fun r _ => astypeRow_idem cs r)

/-- C8: `clean_order` is deterministic and idempotent under re-invocation:
running it again on the caller-visible (normalized) frames it left behind
returns the same result and the same frames — there is no hidden mutable
state. -/
theorem c8_rerun_identical (o s : DF) (res o2 s2 : DF)
    (h : clean_order o s = Except.ok (res, o2, s2)) :
    clean_order o2 s2 = Except.ok (res, o2, s2) := by
  rw [clean_order_ok_iff] at h
  obtain ⟨o1, s1, ho, hs, hx⟩ := h
  simp only [Prod.mk.injEq] at hx
  obtain ⟨hres, ho2, hs2⟩ := hx
  have hro : ∀ r ∈ o2.rows, isoCol "REPORT_DATE" r := by
    rw [ho2]
    intro r hr
    simp only [astypeStr] at hr
    obtain ⟨r1, hr1, rfl⟩ := List.mem_map.mp hr
    exact astypeRow_isoCol _ _ (by decide) r1 (normalizeOrderDates_ok_cells o o1 ho r1 hr1)
  have hrs : ∀ r ∈ s2.rows, isoCol "REPORT_DATE" r := by
    rw [hs2]
    intro r hr
    simp only [astypeStr] at hr
    obtain ⟨r1, hr1, rfl⟩ := List.mem_map.mp hr
    exact astypeRow_isoCol _ _ (by decide) r1 (normalizeOrderDates_ok_cells s s1 hs r1 hr1)
  have hno : normalizeOrderDates o2 = Except.ok o2 := normalizeOrderDates_fix o2 hro
  have hns : normalizeOrderDates s2 = Except.ok s2 := normalizeOrderDates_fix s2 hrs
  have hao : astypeStr ["SERVICE_ID"] o2 = o2 := by rw [ho2]; exact astypeStr_idem _ _
  have has : astypeStr ["SERVICE_ID"] s2 = s2 := by rw [hs2]; exact astypeStr_idem _ _
  rw [clean_order_ok_iff]
  refine ⟨o2, s2, hno, hns, ?_⟩
  rw [hao, has, hres, ho2, hs2]

/-- Witness for C8: re-running on the fan-out example's returned frames
reproduces the result. -/
theorem c8_rerun_identical_witness :
    clean_order orderEx serviceEx =
      Except.ok (⟨["ORDER_ID", "SERVICE_ID", "REPORT_DATE", "X"],
        [[("ORDER_ID", Value.str "o1"), ("SERVICE_ID", Value.str "1"),
          ("REPORT_DATE", Value.str "2024-01-01"), ("X", Value.str "a")],
         [("ORDER_ID", Value.str "o1"), ("SERVICE_ID", Value.str "1"),
          ("REPORT_DATE", Value.str "2024-01-01"), ("X", Value.str "b")]]⟩,
        orderEx, serviceEx) :=
  c8_rerun_identical orderEx serviceEx
    ⟨["ORDER_ID", "SERVICE_ID", "REPORT_DATE", "X"],
      [[("ORDER_ID", Value.str "o1"), ("SERVICE_ID", Value.str "1"),
        ("REPORT_DATE", Value.str "2024-01-01"), ("X", Value.str "a")],
       [("ORDER_ID", Value.str "o1"), ("SERVICE_ID", Value.str "1"),
        ("REPORT_DATE", Value.str "2024-01-01"), ("X", Value.str "b")]]⟩
    orderEx serviceEx (by decide)

/-! ## C3 -/

/-- A merge suffix never produces the dropped status column name. -/
theorem append_suffix_ne_status (c suf : String) (b : Char) (hb : b ≠ 'S')
    (hsuf : suf.data = ['_', b]) : ¬(c ++ suf = "SUBSCRIPTION_STATUS") := by
  intro h
  have hd : c.data ++ suf.data = "SUBSCRIPTION_STATUS".data := by
    cases c with
    | mk l =>
      cases suf with
      | mk l2 => exact congrArg String.data h
  have h1 : (c.data ++ suf.data).getLast? = some b := by
    rw [hsuf, List.getLast?_append_of_ne_nil]
    · rfl
    · simp
  rw [hd] at h1
  have h2 : "SUBSCRIPTION_STATUS".data.getLast? = some 'S' := by decide
  rw [h2] at h1
  exact hb (Option.some.injEq .. ▸ h1).symm

/-- The column dropped by `drop(col, axis=1)` is gone. -/
theorem not_mem_dropCol_cols (col : String) (df : DF) : col ∉ (dropCol col df).cols := by
  simp [dropCol, List.mem_filter]

/-- The remaining columns of `drop(col, axis=1)` come from the input. -/
theorem mem_dropCol_cols (col c0 : String) (df : DF) (h : c0 ∈ (dropCol col df).cols) :
    c0 ∈ df.cols := by
  simp only [dropCol, List.mem_filter] at h
  exact h.1

/-- Selection of the active rows of the raw extract, before the call. -/
def onlyActiveRows (df : DF) : DF :=
  ⟨df.cols, df.rows.filter (fun r => Row.get r "SUBSCRIPTION_STATUS" == Value.str "active")⟩

/-- Column access is unchanged by a cell map that fixes every cell whose
key (before or after) is the accessed one. -/
theorem get_map_eq (k : String) (f : String × Value → String × Value)
    (hf : ∀ kv : String × Value, ((f kv).1 = k ∨ kv.1 = k) → f kv = kv) (r : Row) :
    Row.get (r.map f) k = Row.get r k := by
  induction r with
  | nil => rfl
  | cons kv r ih =>
    show Row.get (f kv :: r.map f) k = Row.get (kv :: r) k
    rw [Row.get, Row.get]
    cases hk1 : (f kv).1 == k with
    | true =>
      have hfix : f kv = kv := hf kv (Or.inl (by simpa using hk1))
      rw [hfix] at hk1 ⊢
      simp only [List.find?, hk1]
    | false =>
      cases hk2 : kv.1 == k with
      | true =>
        exfalso
        have hfix : f kv = kv := hf kv (Or.inr (by simpa using hk2))
        rw [hfix, hk2] at hk1
        cases hk1
      | false =>
        simp only [List.find?, hk1, hk2]
        have h2 := ih
        rw [Row.get, Row.get] at h2
        exact h2

/-- Part A of the amended C3: with a status-free customer table, the
output of `clean_active` has no `SUBSCRIPTION_STATUS` column. -/
theorem clean_active_no_status_col (a c : DF) (d : Option Value) (t : Date) (res aa cc : DF)
    (hcust : "SUBSCRIPTION_STATUS" ∉ c.cols)
    (h : clean_active a c d t = Except.ok (res, aa, cc)) :
    "SUBSCRIPTION_STATUS" ∉ res.cols := by
  rw [clean_active_ok_iff] at h
  obtain ⟨-, a4, -, hx⟩ := h
  simp only [Prod.mk.injEq] at hx
  obtain ⟨hres, -, -⟩ := hx
  rw [hres]
  intro hmem
  rcases List.mem_append.mp hmem with hL | hR
  · obtain ⟨c0, hc0, heq⟩ := List.mem_map.mp hL
    rw [sufL] at heq
    split at heq
    · exact append_suffix_ne_status c0 "_x" 'x' (by decide) (by decide) heq
    · exact not_mem_dropCol_cols "SUBSCRIPTION_STATUS" _ (heq ▸ hc0)
  · obtain ⟨c0, hc0, heq⟩ := List.mem_map.mp hR
    have hc0c : c0 ∈ c.cols := by
      simp only [rightNonKey, List.mem_filter] at hc0
      exact mem_dropCol_cols "REPORT_DATE" c0 (dedupCustomer c) hc0.1
    rw [sufR] at heq
    split at heq
    · exact append_suffix_ne_status c0 "_y" 'y' (by decide) (by decide) heq
    · rw [heq] at hc0c
      exact hcust hc0c

/-- Renaming one column leaves access to an unrelated column unchanged. -/
theorem get_renameKey_eq (old new k : String) (h1 : k ≠ old) (h2 : k ≠ new) (r : Row) :
    Row.get (renameKey old new r) k = Row.get r k := by
  apply get_map_eq
  rintro ⟨k1, v1⟩ hor
  have hk1 : k1 = k := by
    rcases hor with h | h
    · simp only at h
      by_cases ho : k1 = old
      · exfalso
        rw [if_pos (by simpa using ho)] at h
        exact h2 h.symm
      · rw [if_neg (by simpa using ho)] at h
        exact h
    · exact h
  subst hk1
  have hb : (k1 == old) = false := by simpa using h1
  simp [hb]

/-- String coercion of other columns leaves access to an uncoerced
column unchanged. -/
theorem get_astypeRow_eq (cs : List String) (k : String) (hk : cs.contains k = false) (r : Row) :
    Row.get (astypeRow cs r) k = Row.get r k := by
  apply get_map_eq
  rintro ⟨k1, v1⟩ hor
  cases hc : cs.contains k1 with
  | false => simp [hc]
  | true =>
    exfalso
    have hm : k1 ∈ cs := by simpa using hc
    have hk1 : k1 = k := by
      rcases hor with h | h
      · simpa [hm] using h
      · exact h
    rw [hk1] at hc
    rw [hc] at hk
    cases hk

/-- Re-printing a date column leaves access to another column
unchanged. -/
theorem get_strftime_eq (col k : String) (hk : k ≠ col) (r : Row) :
    Row.get (r.map (fun kv => strftimeCell kv col)) k = Row.get r k := by
  apply get_map_eq
  rintro ⟨k1, v1⟩ hor
  have hkey : (strftimeCell (k1, v1) col).1 = k1 := by
    cases hc : (k1 == col) with
    | true => cases v1 <;> simp [strftimeCell, hc]
    | false => simp [strftimeCell, hc]
  have hk1 : k1 = k := by
    rcases hor with h | h
    · rw [hkey] at h; exact h
    · exact h
  subst hk1
  have hb : (k1 == col) = false := by simpa using hk
  simp [strftimeCell, hb]

/-- Parsing a date column leaves access to another column unchanged. -/
theorem get_parse_eq (p : Value → Option Date) (col k : String) (hk : k ≠ col) (r r2 : Row)
    (h : mapCellsExcept (parseCell p col) r = Except.ok r2) :
    Row.get r2 k = Row.get r k := by
  have hF := mapCellsExcept_parseCell_ok p col r r2 h
  clear h
  induction hF with
  | nil => rfl
  | cons hspec hrest ih =>
    obtain ⟨hkey, hcol, hncol⟩ := hspec
    rename_i kv kv2 l l2
    rw [Row.get, Row.get]
    cases hk2 : kv.1 == k with
    | true =>
      have hke : kv.1 = k := by simpa using hk2
      have hfix : kv2 = kv := hncol (by rw [hke]; exact hk)
      rw [hfix]
      simp only [List.find?, hk2]
    | false =>
      have hk2b : (kv2.1 == k) = false := by rw [hkey]; exact hk2
      simp only [List.find?, hk2, hk2b]
      have h2 := ih
      rw [Row.get, Row.get] at h2
      exact h2

/-- A filter commutes out of a map that preserves its predicate. -/
theorem map_filter_pred {α β : Type} (f : α → β) (P : α → Bool) (Q : β → Bool)
    (hf : ∀ a, Q (f a) = P a) (l : List α) :
    (l.filter P).map f = (l.map f).filter Q := by
  calc (l.filter P).map f = (l.filter (Q ∘ f)).map f := by
        congr 1
        exact List.filter_congr (fun a _ => (hf a).symm)
    _ = (l.map f).filter Q := (List.filter_map f l).symm

/-- Pre-filtering by a predicate that the final filter re-applies is
absorbed. -/
theorem filter_sandwich {α : Type} (l : List α) (P D : α → Bool) :
    ((l.filter P).filter D).filter P = (l.filter D).filter P := by
  rw [List.filter_filter, List.filter_filter, List.filter_filter]
  refine List.filter_congr ?_
  intro a _
  cases hP : P a <;> cases hD : D a <;> simp [hP, hD]

/-- A row pass restricted to a preserved predicate succeeds on the
filtered input with the filtered output. -/
theorem mapRowsExcept_filter (f : Row → Except Err Row) (q q2 : Row → Bool)
    (hq : ∀ r r2, f r = Except.ok r2 → q r = q2 r2) (l : List Row) (l2 : List Row)
    (h : mapRowsExcept f l = Except.ok l2) :
    mapRowsExcept f (l.filter q) = Except.ok (l2.filter q2) := by
  induction l generalizing l2 with
  | nil => cases h; rfl
  | cons r l ih =>
    rw [mapRowsExcept] at h
    cases hr : f r with
    | error e => rw [hr] at h; cases h
    | ok r2 =>
      rw [hr] at h
      cases hrest : mapRowsExcept f l with
      | error e => rw [hrest] at h; cases h
      | ok lrest =>
        rw [hrest] at h
        cases h
        have hqr := hq r r2 hr
        cases hcase : q r with
        | true =>
          rw [List.filter_cons_of_pos hcase, List.filter_cons_of_pos (by rw [← hqr]; exact hcase)]
          rw [mapRowsExcept, hr, ih lrest hrest]
        | false =>
          rw [List.filter_cons_of_neg (by simp [hcase]),
            List.filter_cons_of_neg (by simp [← hqr, hcase])]
          exact ih lrest hrest

/-- Part B of the amended C3: rows whose `SUBSCRIPTION_STATUS` is not
exactly `"active"` never contribute to the output — deleting them from
the input changes nothing in the result. -/
theorem clean_active_prefilter (a c : DF) (d : Option Value) (t : Date) (res aa cc : DF)
    (h : clean_active a c d t = Except.ok (res, aa, cc)) :
    clean_active (onlyActiveRows a) c d t = Except.ok (res, onlyActiveRows a, cc) := by
  rw [clean_active_ok_iff] at h
  obtain ⟨⟨rd, hp⟩, a4, hn, hx⟩ := h
  simp only [Prod.mk.injEq] at hx
  obtain ⟨hres, haa, hcc⟩ := hx
  rw [normalizeActiveDates] at hn
  cases ht : toDatetimeCol parseDMYV "SNAPSHOT_DATE"
      (astypeStr ["CUSTOMER_ID", "SERVICE_ID", "SERVICE_NAME"]
        (renameCol "REPORT_DATE" "SNAPSHOT_DATE" a)) with
  | error e => rw [ht] at hn; cases hn
  | ok mid =>
    rw [ht] at hn
    cases hn
    rw [toDatetimeCol] at ht
    cases hm : mapRowsExcept (mapCellsExcept (parseCell parseDMYV "SNAPSHOT_DATE"))
        (astypeStr ["CUSTOMER_ID", "SERVICE_ID", "SERVICE_NAME"]
          (renameCol "REPORT_DATE" "SNAPSHOT_DATE" a)).rows with
    | error e => rw [hm] at ht; cases ht
    | ok rows3 =>
      rw [hm] at ht
      cases ht
      have hPren : ∀ r : Row,
          (Row.get (renameKey "REPORT_DATE" "SNAPSHOT_DATE" r) "SUBSCRIPTION_STATUS" ==
            Value.str "active") =
          (Row.get r "SUBSCRIPTION_STATUS" == Value.str "active") := by
        intro r
        rw [get_renameKey_eq _ _ _ (by decide) (by decide)]
      have hPast : ∀ r : Row,
          (Row.get (astypeRow ["CUSTOMER_ID", "SERVICE_ID", "SERVICE_NAME"] r)
            "SUBSCRIPTION_STATUS" == Value.str "active") =
          (Row.get r "SUBSCRIPTION_STATUS" == Value.str "active") := by
        intro r
        rw [get_astypeRow_eq _ _ (by decide)]
      have hPG : ∀ r : Row,
          (Row.get (r.map (fun kv => strftimeCell kv "SNAPSHOT_DATE"))
            "SUBSCRIPTION_STATUS" == Value.str "active") =
          (Row.get r "SUBSCRIPTION_STATUS" == Value.str "active") := by
        intro r
        rw [get_strftime_eq _ _ (by decide)]
      have hq : ∀ r r2 : Row,
          mapCellsExcept (parseCell parseDMYV "SNAPSHOT_DATE") r = Except.ok r2 →
          (Row.get r "SUBSCRIPTION_STATUS" == Value.str "active") =
          (Row.get r2 "SUBSCRIPTION_STATUS" == Value.str "active") := by
        intro r r2 hg
        rw [get_parse_eq parseDMYV "SNAPSHOT_DATE" "SUBSCRIPTION_STATUS" (by decide) r r2 hg]
      have h1 : ((a.rows.filter
            (fun r => Row.get r "SUBSCRIPTION_STATUS" == Value.str "active")).map
              (renameKey "REPORT_DATE" "SNAPSHOT_DATE")).map
            (astypeRow ["CUSTOMER_ID", "SERVICE_ID", "SERVICE_NAME"]) =
          ((a.rows.map (renameKey "REPORT_DATE" "SNAPSHOT_DATE")).map
            (astypeRow ["CUSTOMER_ID", "SERVICE_ID", "SERVICE_NAME"])).filter
              (fun r => Row.get r "SUBSCRIPTION_STATUS" == Value.str "active") := by
        calc ((a.rows.filter
              (fun r => Row.get r "SUBSCRIPTION_STATUS" == Value.str "active")).map
                (renameKey "REPORT_DATE" "SNAPSHOT_DATE")).map
              (astypeRow ["CUSTOMER_ID", "SERVICE_ID", "SERVICE_NAME"])
            = ((a.rows.map (renameKey "REPORT_DATE" "SNAPSHOT_DATE")).filter
                (fun r => Row.get r "SUBSCRIPTION_STATUS" == Value.str "active")).map
                (astypeRow ["CUSTOMER_ID", "SERVICE_ID", "SERVICE_NAME"]) :=
              congrArg (List.map (astypeRow ["CUSTOMER_ID", "SERVICE_ID", "SERVICE_NAME"]))
                (map_filter_pred (renameKey "REPORT_DATE" "SNAPSHOT_DATE")
                  (fun r => Row.get r "SUBSCRIPTION_STATUS" == Value.str "active")
                  (fun r => Row.get r "SUBSCRIPTION_STATUS" == Value.str "active")
                  hPren a.rows)
          _ = ((a.rows.map (renameKey "REPORT_DATE" "SNAPSHOT_DATE")).map
                (astypeRow ["CUSTOMER_ID", "SERVICE_ID", "SERVICE_NAME"])).filter
                (fun r => Row.get r "SUBSCRIPTION_STATUS" == Value.str "active") :=
              map_filter_pred (astypeRow ["CUSTOMER_ID", "SERVICE_ID", "SERVICE_NAME"])
                (fun r => Row.get r "SUBSCRIPTION_STATUS" == Value.str "active")
                (fun r => Row.get r "SUBSCRIPTION_STATUS" == Value.str "active")
                hPast _
      have h2 : mapRowsExcept (mapCellsExcept (parseCell parseDMYV "SNAPSHOT_DATE"))
          (((a.rows.map (renameKey "REPORT_DATE" "SNAPSHOT_DATE")).map
            (astypeRow ["CUSTOMER_ID", "SERVICE_ID", "SERVICE_NAME"])).filter
              (fun r => Row.get r "SUBSCRIPTION_STATUS" == Value.str "active")) =
          Except.ok (rows3.filter
            (fun r => Row.get r "SUBSCRIPTION_STATUS" == Value.str "active")) :=
        mapRowsExcept_filter _ _ _ hq _ rows3 hm
      have h3 : (rows3.filter
            (fun r => Row.get r "SUBSCRIPTION_STATUS" == Value.str "active")).map
              (fun r3 => r3.map (fun kv => strftimeCell kv "SNAPSHOT_DATE")) =
          (rows3.map (fun r3 => r3.map (fun kv => strftimeCell kv "SNAPSHOT_DATE"))).filter
            (fun r => Row.get r "SUBSCRIPTION_STATUS" == Value.str "active") :=
        map_filter_pred (fun r3 => r3.map (fun kv => strftimeCell kv "SNAPSHOT_DATE"))
          (fun r => Row.get r "SUBSCRIPTION_STATUS" == Value.str "active")
          (fun r => Row.get r "SUBSCRIPTION_STATUS" == Value.str "active") hPG rows3
      rw [clean_active_ok_iff]
      refine ⟨⟨rd, hp⟩, strftimeCol "SNAPSHOT_DATE"
        ⟨(astypeStr ["CUSTOMER_ID", "SERVICE_ID", "SERVICE_NAME"]
            (renameCol "REPORT_DATE" "SNAPSHOT_DATE" a)).cols,
          rows3.filter (fun r => Row.get r "SUBSCRIPTION_STATUS" == Value.str "active")⟩,
        ?_, ?_⟩
      · rw [normalizeActiveDates, toDatetimeCol]
        have ha2f : (astypeStr ["CUSTOMER_ID", "SERVICE_ID", "SERVICE_NAME"]
            (renameCol "REPORT_DATE" "SNAPSHOT_DATE" (onlyActiveRows a))).rows =
            ((a.rows.map (renameKey "REPORT_DATE" "SNAPSHOT_DATE")).map
              (astypeRow ["CUSTOMER_ID", "SERVICE_ID", "SERVICE_NAME"])).filter
                (fun r => Row.get r "SUBSCRIPTION_STATUS" == Value.str "active") := h1
        rw [ha2f, h2]
        rfl
      · have h6 : filterRows (fun r => Row.get r "SUBSCRIPTION_STATUS" == Value.str "active")
            (filterRows (fun r => cellLeStr (Row.get r "SNAPSHOT_DATE") (isoFmt (prevDay t)))
              (strftimeCol "SNAPSHOT_DATE"
                ⟨(astypeStr ["CUSTOMER_ID", "SERVICE_ID", "SERVICE_NAME"]
                    (renameCol "REPORT_DATE" "SNAPSHOT_DATE" a)).cols,
                  rows3.filter
                    (fun r => Row.get r "SUBSCRIPTION_STATUS" == Value.str "active")⟩)) =
            filterRows (fun r => Row.get r "SUBSCRIPTION_STATUS" == Value.str "active")
              (filterRows (fun r => cellLeStr (Row.get r "SNAPSHOT_DATE") (isoFmt (prevDay t)))
                (strftimeCol "SNAPSHOT_DATE"
                  ⟨(astypeStr ["CUSTOMER_ID", "SERVICE_ID", "SERVICE_NAME"]
                      (renameCol "REPORT_DATE" "SNAPSHOT_DATE" a)).cols, rows3⟩)) := by
          simp only [filterRows, strftimeCol]
          rw [h3, filter_sandwich]
        rw [hres, hcc, h6]

/-- A customer extract carrying its own `SUBSCRIPTION_STATUS` column. -/
def custStatusEx : DF :=
  ⟨["CUSTOMER_ID", "REPORT_DATE", "SUBSCRIPTION_STATUS"],
   [[("CUSTOMER_ID", Value.int 1), ("REPORT_DATE", Value.str "2024-01-01"),
     ("SUBSCRIPTION_STATUS", Value.str "cancelled")]]⟩

/-- C3 counterexample: when the customer table carries a
`SUBSCRIPTION_STATUS` column, the output of `clean_active` contains a
`SUBSCRIPTION_STATUS` column, and its row carries the non-active value
`"cancelled"` merged in from the customer side. -/
theorem c3_status_column_leak :
    clean_active activeEx custStatusEx none ⟨2024, 1, 5⟩ =
      Except.ok (⟨["SNAPSHOT_DATE", "CUSTOMER_ID", "SERVICE_ID", "SERVICE_NAME",
          "SUBSCRIPTION_STATUS"],
        [[("SNAPSHOT_DATE", Value.str "2024-01-01"), ("CUSTOMER_ID", Value.str "1"),
          ("SERVICE_ID", Value.str "10"), ("SERVICE_NAME", Value.str "X"),
          ("SUBSCRIPTION_STATUS", Value.str "cancelled")]]⟩,
        activeEx,
        ⟨["CUSTOMER_ID", "REPORT_DATE", "SUBSCRIPTION_STATUS"],
         [[("CUSTOMER_ID", Value.str "1"), ("REPORT_DATE", Value.str "2024-01-01"),
           ("SUBSCRIPTION_STATUS", Value.str "cancelled")]]⟩) ∧
    "SUBSCRIPTION_STATUS" ∈ ["SNAPSHOT_DATE", "CUSTOMER_ID", "SERVICE_ID", "SERVICE_NAME",
      "SUBSCRIPTION_STATUS"] :=
  ⟨by decide, by decide⟩

/-- C3 amended: provided the customer table has no `SUBSCRIPTION_STATUS`
column, the output of `clean_active` never contains one, and rows of the
active table whose status is not exactly `"active"` never appear:
deleting them from the input leaves the result unchanged. -/
theorem c3_status_amended (a c : DF) (d : Option Value) (t : Date) (res aa cc : DF)
    (hcust : "SUBSCRIPTION_STATUS" ∉ c.cols)
    (h : clean_active a c d t = Except.ok (res, aa, cc)) :
    "SUBSCRIPTION_STATUS" ∉ res.cols ∧
    clean_active (onlyActiveRows a) c d t = Except.ok (res, onlyActiveRows a, cc) :=
  ⟨clean_active_no_status_col a c d t res aa cc hcust h,
   clean_active_prefilter a c d t res aa cc h⟩

/-- Witness for C3 (amended) at the spec's end-to-end example. -/
theorem c3_status_amended_witness :
    "SUBSCRIPTION_STATUS" ∉ (⟨["SNAPSHOT_DATE", "CUSTOMER_ID", "SERVICE_ID", "SERVICE_NAME",
        "NAME"],
      [[("SNAPSHOT_DATE", Value.str "2024-01-01"), ("CUSTOMER_ID", Value.str "1"),
        ("SERVICE_ID", Value.str "10"), ("SERVICE_NAME", Value.str "X"),
        ("NAME", Value.str "Alice")]]⟩ : DF).cols ∧
    clean_active (onlyActiveRows activeEx) customerEx none ⟨2024, 1, 5⟩ =
      Except.ok (⟨["SNAPSHOT_DATE", "CUSTOMER_ID", "SERVICE_ID", "SERVICE_NAME", "NAME"],
        [[("SNAPSHOT_DATE", Value.str "2024-01-01"), ("CUSTOMER_ID", Value.str "1"),
          ("SERVICE_ID", Value.str "10"), ("SERVICE_NAME", Value.str "X"),
          ("NAME", Value.str "Alice")]]⟩,
        onlyActiveRows activeEx, customerExStr) :=
  c3_status_amended activeEx customerEx none ⟨2024, 1, 5⟩
    ⟨["SNAPSHOT_DATE", "CUSTOMER_ID", "SERVICE_ID", "SERVICE_NAME", "NAME"],
      [[("SNAPSHOT_DATE", Value.str "2024-01-01"), ("CUSTOMER_ID", Value.str "1"),
        ("SERVICE_ID", Value.str "10"), ("SERVICE_NAME", Value.str "X"),
        ("NAME", Value.str "Alice")]]⟩
    activeEx customerExStr (by decide) (by decide)

end ETL
